import Mathlib

/-!
# MobileMangaReader: a shallow embedding of `main.js`, `supabase-integration.js` and `sw.js`

JavaScript values are embedded in one inductive type, `JsVal`.  A throwing
operation returns `Except JsError _`; an `async` function is embedded by the
value its promise settles with (`Except.error` for a rejection).  Platform
services the program calls (the network, the Cache API, `localStorage`, the
clock) are explicit arguments and explicit state.

Conventions on the platform model, used throughout:

* numbers are the integers, `NaN` and the two infinities (fractions do not
  occur in the program's own literals and are not represented); an integer
  prints in decimal, as JavaScript prints every integer of magnitude below 10^21;
* a JSON text is represented by the document it spells (`Text.json doc`);
  `JSON.stringify` builds that document and `JSON.parse` reads it back, and any
  other text is `Text.raw`;
* the Cache API and `localStorage` are finite maps whose operations succeed
  (quota and scheme errors of the platform are outside the model).
-/

namespace MangaReaderApp

/-! ## JavaScript values -/

/-- A JavaScript value: the JSON documents plus `undefined`, `NaN` and the
two infinities. -/
inductive JsVal where
  | undefined
  | null
  | bool (b : Bool)
  | num (n : Int)
  | nan
  | infinity (negative : Bool)
  | str (s : String)
  | arr (items : List JsVal)
  | obj (fields : List (String × JsVal))
  deriving Inhabited

/-- The errors a JavaScript operation of the program can throw. -/
inductive JsError where
  | typeError
  | syntaxError
  | networkError
  deriving DecidableEq, Repr, Inhabited

/-- Truthiness of a value, as tested by `if`, `||`, `&&`, `!` and `?:`. -/
def truthy : JsVal → Bool
  | .undefined => false
  | .null => false
  | .bool b => b
  | .num n => n != 0
  | .nan => false
  | .infinity _ => true
  | .str s => s != ""
  | .arr _ => true
  | .obj _ => true

/-- The operator `a || b`. -/
def jsOr (a b : JsVal) : JsVal := if truthy a then a else b

/-- First binding of key `k` in the fields of an object. -/
def lookupField (k : String) : List (String × JsVal) → JsVal
  | [] => .undefined
  | (k', v) :: rest => if k' = k then v else lookupField k rest

/-- Property read `v.k` for the property names the program uses (none of
them is a built-in member of arrays, strings, numbers or booleans): a
`TypeError` on `undefined` and `null`, the own property of an object, and
`undefined` on every other value. -/
def getProp (v : JsVal) (k : String) : Except JsError JsVal :=
  match v with
  | .undefined => .error .typeError
  | .null => .error .typeError
  | .obj fields => .ok (lookupField k fields)
  | _ => .ok .undefined

/-- Indexed read `v[i]`. -/
def getIndex (v : JsVal) (i : Int) : Except JsError JsVal :=
  match v with
  | .undefined => .error .typeError
  | .null => .error .typeError
  | .arr items => if 0 ≤ i then .ok (items.getD i.toNat .undefined) else .ok .undefined
  | _ => .ok .undefined

/-- The comparison `a === b` when at least one side is a primitive; two
object or array values of the program are never the same reference. -/
def strictEq : JsVal → JsVal → Bool
  | .undefined, .undefined => true
  | .null, .null => true
  | .bool a, .bool b => a == b
  | .num a, .num b => a == b
  | .infinity a, .infinity b => a == b
  | .str a, .str b => a == b
  | _, _ => false

/-- The callback `f` applied to the elements of an array in order, up to the first throw. -/
def mapList (f : JsVal → Except JsError JsVal) : List JsVal → Except JsError (List JsVal)
  | [] => .ok []
  | x :: rest =>
    match f x with
    | .error e => .error e
    | .ok y =>
      match mapList f rest with
      | .error e => .error e
      | .ok ys => .ok (y :: ys)

/-- Method call `v.map(f)`: only an array has a callable `map`. -/
def callMap (v : JsVal) (f : JsVal → Except JsError JsVal) : Except JsError JsVal :=
  match v with
  | .arr items =>
    match mapList f items with
    | .error e => .error e
    | .ok ys => .ok (.arr ys)
  | _ => .error .typeError

/-- A text held by the platform (a response body, a `localStorage` value):
either a JSON text, represented by the document it spells, or any other text. -/
inductive Text where
  | json (doc : JsVal)
  | raw (s : String)
  deriving Inhabited

/-- Method call `v.forEach(f)` where the callback updates a state: an array
runs the callback on each element in order and stops at the first throw,
keeping the updates made so far; any other value has no callable `forEach`. -/
def forEachState {σ : Type} (f : σ → JsVal → Except JsError σ) : σ → List JsVal → σ × Option JsError
  | st, [] => (st, none)
  | st, x :: rest =>
    match f st x with
    | .ok st' => forEachState f st' rest
    | .error e => (st, some e)

/-- Method call `v.find(p)` on an array: first element the predicate accepts, else `undefined`. -/
def findFirst (p : JsVal → Except JsError Bool) : List JsVal → Except JsError JsVal
  | [] => .ok .undefined
  | x :: rest =>
    match p x with
    | .error e => .error e
    | .ok true => .ok x
    | .ok false => findFirst p rest

/-- Method call `v.filter(p)` on an array. -/
def filterList (p : JsVal → Except JsError Bool) : List JsVal → Except JsError (List JsVal)
  | [] => .ok []
  | x :: rest =>
    match p x with
    | .error e => .error e
    | .ok keep =>
      match filterList p rest with
      | .error e => .error e
      | .ok kept => .ok (if keep then x :: kept else kept)

/-- Substring test on character lists. -/
def charsInclude : List Char → List Char → Bool
  | [], t => t.isEmpty
  | c :: s, t => t.isPrefixOf (c :: s) || charsInclude s t

/-- The string method `s.includes(t)`. -/
def includes (s t : String) : Bool := charsInclude s.data t.data

/-- Method call `v.toLowerCase()`: only a string has it.  The platform's
Unicode lower-casing is the argument `lower`. -/
def callToLowerCase (lower : String → String) (v : JsVal) : Except JsError String :=
  match v with
  | .str s => .ok (lower s)
  | _ => .error .typeError

/-! ## `supabase-integration.js`: class `MangaAPI` -/

/-- What the pair `await fetch(url)`, `await response.json()` yields: the
fetch rejects, the body is not JSON, or the body parses to `data`. -/
inductive FetchOutcome where
  | networkError
  | notJson
  | json (data : JsVal)
  deriving Inhabited

/-- The value of `await response.json()` after `await fetch(url)`. -/
def awaitJson : FetchOutcome → Except JsError JsVal
  | .networkError => .error .networkError
  | .notJson => .error .syntaxError
  | .json data => .ok data

/-- Key equality of a `Map` (SameValueZero): primitives by value, `NaN`
equal to itself; object keys parsed from a response are always fresh references. -/
def sameValueZero (a b : JsVal) : Bool :=
  match a, b with
  | .nan, .nan => true
  | _, _ => strictEq a b

/-- The method `Map.prototype.set`: replaces the value of an existing key in
place, else appends the entry (a `Map` iterates in insertion order). -/
def mapSet : List (JsVal × JsVal) → JsVal → JsVal → List (JsVal × JsVal)
  | [], k, v => [(k, v)]
  | (k', v') :: rest, k, v =>
    if sameValueZero k' k then (k', v) :: rest else (k', v') :: mapSet rest k v

/-- The mutable fields of a `MangaAPI` instance (`baseURL` and `endpoints` are constants). -/
structure MangaAPI where
  mangaData : List (JsVal × JsVal)
  currentManga : JsVal
  currentChapter : JsVal
  deriving Inhabited

/-- The fields as `constructor()` assigns them before it calls `init()`. -/
def MangaAPI.initial : MangaAPI :=
  { mangaData := [], currentManga := .null, currentChapter := .null }

/-- The call `new MangaAPI()`: `init()` runs `setupAPIEndpoints()` and then
calls `this.loadMangaList()`, a method the class does not define, which
throws a `TypeError` out of the constructor. -/
def MangaAPI.construct : Except JsError MangaAPI := .error .typeError

/-- The method `getFallbackMangaList()`. -/
def getFallbackMangaList : JsVal :=
  .arr [
    .obj [
      ("id", .str "jujutsu-kaisen"),
      ("title", .str "Jujutsu Kaisen"),
      ("arabicTitle", .str "جوجوتسو كايسن"),
      ("author", .str "Gege Akutami"),
      ("coverImage", .str "https://kimi-web-img.moonshot.cn/img/down-ph.img.susercontent.com/ddbce8f52a9e559ccaf69ee8f625ecf26f5e6ae5"),
      ("genre", .str "أكشن"),
      ("status", .str "ongoing"),
      ("chapters", .arr [
        .obj [("number", .num 1), ("title", .str "ريوومين واثنان من السكين"), ("arabicTitle", .str "ريوومين واثنان من السكين")],
        .obj [("number", .num 2), ("title", .str "لعنة واندر"), ("arabicTitle", .str "لعنة واندر")],
        .obj [("number", .num 3), ("title", .str "فتح العين"), ("arabicTitle", .str "فتح العين")]]),
      ("description", .str "A boy swallows a cursed talisman - the finger of a demon - and becomes cursed himself."),
      ("arabicDescription", .str "صبي يبتلاع تميمة ملعونة - إصبع شيطان - ويصبح ملعوناً بنفسه.")],
    .obj [
      ("id", .str "one-piece"),
      ("title", .str "One Piece"),
      ("arabicTitle", .str "ون بيس"),
      ("author", .str "Eiichiro Oda"),
      ("coverImage", .str "https://kimi-web-img.moonshot.cn/img/m.media-amazon.com/20e1f9b95e97fe0d118dac29bd3b22806c014da1.jpg"),
      ("genre", .str "مغامرة"),
      ("status", .str "ongoing"),
      ("chapters", .arr [
        .obj [("number", .num 1), ("title", .str "Romance Dawn"), ("arabicTitle", .str "فجر الرومانسية")],
        .obj [("number", .num 2), ("title", .str "They Call Him Straw Hat Luffy"), ("arabicTitle", .str "يُطلقون عليه لوفي قبعة القش")]]),
      ("description", .str "Follows the adventures of Monkey D. Luffy and his pirate crew in order to find the greatest treasure ever."),
      ("arabicDescription", .str "يتبع مغامرات مونكي دي لوفي وطاقمه القراصنة للعثور على أعظم كنز على الإطلاق.")]]

/-- The items of an array value, for `find`/`filter`/`forEach` calls. -/
def arrayItems (v : JsVal) : Except JsError (List JsVal) :=
  match v with
  | .arr items => .ok items
  | _ => .error .typeError

/-- The method `getFallbackMangaData(mangaId)`:
`mangaList.find(manga => manga.id === mangaId) || mangaList[0]`. -/
def getFallbackMangaData (mangaId : JsVal) : Except JsError JsVal := do
  let mangaList := getFallbackMangaList
  let items ← arrayItems mangaList
  let found ← findFirst (fun manga => do
    let id ← getProp manga "id"
    pure (strictEq id mangaId)) items
  if truthy found then pure found else getIndex mangaList 0

/-- The constant `samplePages` of `getFallbackChapterData`. -/
def samplePages : JsVal :=
  .arr [
    .obj [
      ("id", .num 1),
      ("pageNumber", .num 1),
      ("imageUrl", .str "https://kimi-web-img.moonshot.cn/img/down-ph.img.susercontent.com/ddbce8f52a9e559ccaf69ee8f625ecf26f5e6ae5"),
      ("arabicTranslation", .str "كان يامادا في الثانية من المدرسة الإعدادية..."),
      ("derjaTranslation", .str "كان يامادا في الثانية من المدرسة الإعدادية..."),
      ("position", .str "bottom")],
    .obj [
      ("id", .num 2),
      ("pageNumber", .num 2),
      ("imageUrl", .str "https://kimi-web-img.moonshot.cn/img/static1.srcdn.com/8560a7e49ba63806990c4791b4309ea3d57668d3.jpg"),
      ("arabicTranslation", .str "العالم مليء بالكائنات الخارقة..."),
      ("derjaTranslation", .str "العالم مليان كائنات خارقة..."),
      ("position", .str "bottom")],
    .obj [
      ("id", .num 3),
      ("pageNumber", .num 3),
      ("imageUrl", .str "https://kimi-web-img.moonshot.cn/img/comicvine.gamespot.com/b27bf795abd45478996051000627be8d238c4e0a.jpg"),
      ("arabicTranslation", .str "إيتادوري يوجي... أنت الآن ملزم بعقد مع ساكونا!"),
      ("derjaTranslation", .str "إيتادوري يوجي... دلوقتي أنت ملزم بعقد مع ساكونا!"),
      ("position", .str "bottom")]]

/-- The method `getFallbackChapterData(mangaId, chapterNumber)`. -/
def getFallbackChapterData (mangaId chapterNumber : JsVal) : JsVal :=
  .obj [("mangaId", mangaId), ("chapterNumber", chapterNumber), ("pages", samplePages)]

/-- The callback of `mangaList.filter` in `searchFallbackManga`: the title,
the Arabic title or the genre, lower-cased, includes the lower-cased query. -/
def matchesQuery (lower : String → String) (lowercaseQuery : String) (manga : JsVal) :
    Except JsError Bool := do
  let title ← callToLowerCase lower (← getProp manga "title")
  if includes title lowercaseQuery then pure true else
  let arabicTitle ← callToLowerCase lower (← getProp manga "arabicTitle")
  if includes arabicTitle lowercaseQuery then pure true else
  let genre ← callToLowerCase lower (← getProp manga "genre")
  pure (includes genre lowercaseQuery)

/-- The method `searchFallbackManga(query)`. -/
def searchFallbackManga (lower : String → String) (query : JsVal) : Except JsError JsVal := do
  let mangaList := getFallbackMangaList
  let lowercaseQuery ← callToLowerCase lower query
  let items ← arrayItems mangaList
  let kept ← filterList (matchesQuery lower lowercaseQuery) items
  pure (.arr kept)

/-- A `try` block that ran to `body` (its result and the state it left),
followed by `catch (error) { handler }`. -/
def tryCatch {σ α : Type} (body : Except JsError α × σ)
    (handler : σ → Except JsError α × σ) : Except JsError α × σ :=
  match body with
  | (.ok v, st) => (.ok v, st)
  | (.error _, st) => handler st

/-- The object literal that `fetchMangaList` stores for `manga` and that
`fetchMangaDetails` builds from `data` (the two literals are the same). -/
def mangaRecord (manga : JsVal) : Except JsError JsVal := do
  let id ← getProp manga "id"
  let title ← getProp manga "title"
  let arabic_title ← getProp manga "arabic_title"
  let author ← getProp manga "author"
  let cover_image ← getProp manga "cover_image"
  let genre ← getProp manga "genre"
  let status ← getProp manga "status"
  let chapters ← getProp manga "chapters"
  let description ← getProp manga "description"
  let arabic_description ← getProp manga "arabic_description"
  pure (.obj [
    ("id", id),
    ("title", title),
    ("arabicTitle", jsOr arabic_title title),
    ("author", author),
    ("coverImage", cover_image),
    ("genre", genre),
    ("status", status),
    ("chapters", jsOr chapters (.arr [])),
    ("description", description),
    ("arabicDescription", jsOr arabic_description description)])

/-- The callback of `data.forEach` in `fetchMangaList`:
`this.mangaData.set(manga.id, {...})`. -/
def storeManga (mangaData : List (JsVal × JsVal)) (manga : JsVal) :
    Except JsError (List (JsVal × JsVal)) := do
  let id ← getProp manga "id"
  let record ← mangaRecord manga
  pure (mapSet mangaData id record)

/-- The `try` block of `fetchMangaList`. -/
def fetchMangaListTry (api : MangaAPI) (outcome : FetchOutcome) : Except JsError JsVal × MangaAPI :=
  match awaitJson outcome with
  | .error e => (.error e, api)
  | .ok data =>
    match arrayItems data with
    | .error e => (.error e, api)
    | .ok items =>
      match forEachState storeManga api.mangaData items with
      | (stored, some e) => (.error e, { api with mangaData := stored })
      | (stored, none) => (.ok (.arr (stored.map Prod.snd)), { api with mangaData := stored })

/-- The method `fetchMangaList()`; `outcome` is what the remote call yields. -/
def fetchMangaList (api : MangaAPI) (outcome : FetchOutcome) : Except JsError JsVal × MangaAPI :=
  tryCatch (fetchMangaListTry api outcome) (fun api' => (.ok getFallbackMangaList, api'))

/-- The `try` block of `fetchMangaDetails`. -/
def fetchMangaDetailsTry (api : MangaAPI) (outcome : FetchOutcome) : Except JsError JsVal × MangaAPI :=
  match awaitJson outcome with
  | .error e => (.error e, api)
  | .ok data =>
    match mangaRecord data with
    | .error e => (.error e, api)
    | .ok record => (.ok record, { api with currentManga := record })

/-- The method `fetchMangaDetails(mangaId)`. -/
def fetchMangaDetails (api : MangaAPI) (mangaId : JsVal) (outcome : FetchOutcome) :
    Except JsError JsVal × MangaAPI :=
  tryCatch (fetchMangaDetailsTry api outcome) (fun api' => (getFallbackMangaData mangaId, api'))

/-- The callback of `data.pages.map` in `fetchChapterPages`. -/
def pageRecord (page : JsVal) : Except JsError JsVal := do
  let id ← getProp page "id"
  let page_number ← getProp page "page_number"
  let image_url ← getProp page "image_url"
  let arabic_translation ← getProp page "arabic_translation"
  let derja_translation ← getProp page "derja_translation"
  let position ← getProp page "position"
  pure (.obj [
    ("id", id),
    ("pageNumber", page_number),
    ("imageUrl", image_url),
    ("arabicTranslation", jsOr arabic_translation (.str "")),
    ("derjaTranslation", jsOr (jsOr derja_translation arabic_translation) (.str "")),
    ("position", jsOr position (.str "bottom"))])

/-- The `try` block of `fetchChapterPages`. -/
def fetchChapterPagesTry (api : MangaAPI) (mangaId chapterNumber : JsVal) (outcome : FetchOutcome) :
    Except JsError JsVal × MangaAPI :=
  match awaitJson outcome with
  | .error e => (.error e, api)
  | .ok data =>
    match (do let pages ← getProp data "pages"; callMap pages pageRecord) with
    | .error e => (.error e, api)
    | .ok pages =>
      let chapter := JsVal.obj [("mangaId", mangaId), ("chapterNumber", chapterNumber), ("pages", pages)]
      (.ok chapter, { api with currentChapter := chapter })

/-- The method `fetchChapterPages(mangaId, chapterNumber)`. -/
def fetchChapterPages (api : MangaAPI) (mangaId chapterNumber : JsVal) (outcome : FetchOutcome) :
    Except JsError JsVal × MangaAPI :=
  tryCatch (fetchChapterPagesTry api mangaId chapterNumber outcome)
    (fun api' => (.ok (getFallbackChapterData mangaId chapterNumber), api'))

/-- The `try` block of `searchManga`: `data.results || []`. -/
def searchMangaTry (api : MangaAPI) (outcome : FetchOutcome) : Except JsError JsVal × MangaAPI :=
  match awaitJson outcome with
  | .error e => (.error e, api)
  | .ok data =>
    match getProp data "results" with
    | .error e => (.error e, api)
    | .ok results => (.ok (jsOr results (.arr [])), api)

/-- The method `searchManga(query)`. -/
def searchManga (lower : String → String) (api : MangaAPI) (query : JsVal)
    (outcome : FetchOutcome) : Except JsError JsVal × MangaAPI :=
  tryCatch (searchMangaTry api outcome) (fun api' => (searchFallbackManga lower query, api'))

/-! ### Reading progress in `localStorage` -/

/-- The browser's `localStorage`: keys and the texts stored under them. -/
abbrev Storage := List (String × Text)

/-- The call `localStorage.getItem(key)`; `none` is JavaScript's `null`. -/
def getItem : Storage → String → Option Text
  | [], _ => none
  | (k, v) :: rest, key => if k = key then some v else getItem rest key

/-- The call `localStorage.setItem(key, value)`. -/
def setItem : Storage → String → Text → Storage
  | [], key, value => [(key, value)]
  | (k, v) :: rest, key, value =>
    if k = key then (k, value) :: rest else (k, v) :: setItem rest key value

mutual
/-- The document `JSON.stringify` writes for a value nested in an array or
an object: `NaN` and the infinities become `null`, and so does `undefined` in
an array. -/
def stringifyVal : JsVal → JsVal
  | .undefined => .null
  | .null => .null
  | .bool b => .bool b
  | .num n => .num n
  | .nan => .null
  | .infinity _ => .null
  | .str s => .str s
  | .arr items => .arr (stringifyItems items)
  | .obj fields => .obj (stringifyFields fields)
/-- Elements of an array under `JSON.stringify`. -/
def stringifyItems : List JsVal → List JsVal
  | [] => []
  | x :: rest => stringifyVal x :: stringifyItems rest
/-- Members of an object under `JSON.stringify`: a member whose value is
`undefined` is left out. -/
def stringifyFields : List (String × JsVal) → List (String × JsVal)
  | [] => []
  | (_, .undefined) :: rest => stringifyFields rest
  | (k, v) :: rest => (k, stringifyVal v) :: stringifyFields rest
end

/-- The text `JSON.stringify(v)` as passed to `setItem` (which stores the
string `"undefined"` for `undefined`). -/
def jsonStringify (v : JsVal) : Text :=
  match v with
  | .undefined => .raw "undefined"
  | v => .json (stringifyVal v)

/-- The call `JSON.parse(text)`. -/
def jsonParse : Text → Except JsError JsVal
  | .json doc => .ok doc
  | .raw _ => .error .syntaxError

/-- Truthiness of a string returned by `getItem`: only the empty string is falsy. -/
def textTruthy : Text → Bool
  | .json _ => true
  | .raw s => s != ""

mutual
/-- The string a value becomes inside a template literal.  An array prints
its elements joined with commas; an object prints as `[object Object]`,
unless it has an own member `toString`, which is not callable and makes the
conversion throw a `TypeError`. -/
def toStringVal : JsVal → Except JsError String
  | .undefined => .ok "undefined"
  | .null => .ok "null"
  | .bool b => .ok (if b then "true" else "false")
  | .num n => .ok (toString n)
  | .nan => .ok "NaN"
  | .infinity negative => .ok (if negative then "-Infinity" else "Infinity")
  | .str s => .ok s
  | .arr items =>
    match itemTexts items with
    | .error e => .error e
    | .ok texts => .ok (",".intercalate texts)
  | .obj fields =>
    if fields.any (fun member => member.1 == "toString") then .error .typeError
    else .ok "[object Object]"
/-- The texts of the elements of an array when it prints: `undefined` and
`null` print as the empty string. -/
def itemTexts : List JsVal → Except JsError (List String)
  | [] => .ok []
  | .undefined :: rest =>
    match itemTexts rest with
    | .error e => .error e
    | .ok texts => .ok ("" :: texts)
  | .null :: rest =>
    match itemTexts rest with
    | .error e => .error e
    | .ok texts => .ok ("" :: texts)
  | x :: rest =>
    match toStringVal x with
    | .error e => .error e
    | .ok text =>
      match itemTexts rest with
      | .error e => .error e
      | .ok texts => .ok (text :: texts)
end

/-- The storage key of a manga's progress, the template literal `progress_${mangaId}`. -/
def progressKey (mangaId : JsVal) : Except JsError String :=
  match toStringVal mangaId with
  | .error e => .error e
  | .ok text => .ok ("progress_" ++ text)

/-- The method `saveReadingProgress(mangaId, chapterNumber, pageNumber)`;
`now` is `new Date().toISOString()`. -/
def saveReadingProgress (st : Storage) (mangaId chapterNumber pageNumber : JsVal)
    (now : String) : Except JsError Storage :=
  let progress := JsVal.obj [
    ("mangaId", mangaId),
    ("chapterNumber", chapterNumber),
    ("pageNumber", pageNumber),
    ("timestamp", .str now)]
  match progressKey mangaId with
  | .error e => .error e
  | .ok key => .ok (setItem st key (jsonStringify progress))

/-- The method `getReadingProgress(mangaId)`: `saved ? JSON.parse(saved) : null`. -/
def getReadingProgress (st : Storage) (mangaId : JsVal) : Except JsError JsVal :=
  match progressKey mangaId with
  | .error e => .error e
  | .ok key =>
    match getItem st key with
    | none => .ok .null
    | some saved => if textTruthy saved then jsonParse saved else .ok .null

/-- The method `getBookmarks()`: `saved ? JSON.parse(saved) : []`. -/
def getBookmarks (st : Storage) : Except JsError JsVal :=
  match getItem st "bookmarks" with
  | none => .ok (.arr [])
  | some saved => if textTruthy saved then jsonParse saved else .ok (.arr [])

/-- The method `addBookmark(mangaId, chapterNumber, pageNumber)`; `nowMs` is
`Date.now()` and `now` is `new Date().toISOString()`.  Returns `newBookmark`. -/
def addBookmark (st : Storage) (mangaId chapterNumber pageNumber : JsVal) (nowMs : Int)
    (now : String) : Except JsError (JsVal × Storage) := do
  let bookmarks ← getBookmarks st
  let newBookmark := JsVal.obj [
    ("id", .num nowMs),
    ("mangaId", mangaId),
    ("chapterNumber", chapterNumber),
    ("pageNumber", pageNumber),
    ("timestamp", .str now)]
  let items ← arrayItems bookmarks
  pure (newBookmark, setItem st "bookmarks" (jsonStringify (.arr (items ++ [newBookmark]))))

/-- The method `removeBookmark(bookmarkId)`: keeps the bookmarks `b` with `b.id !== bookmarkId`. -/
def removeBookmark (st : Storage) (bookmarkId : JsVal) : Except JsError Storage := do
  let bookmarks ← getBookmarks st
  let items ← arrayItems bookmarks
  let filteredBookmarks ← filterList (fun b => do
    let id ← getProp b "id"
    pure (!(strictEq id bookmarkId))) items
  pure (setItem st "bookmarks" (jsonStringify (.arr filteredBookmarks)))

/-- The sequence `saveReadingProgress(mangaId, chapterNumber, pageNumber)`,
`getReadingProgress(reader)`. -/
def saveThenRead (st : Storage) (mangaId chapterNumber pageNumber : JsVal) (now : String)
    (reader : JsVal) : Except JsError JsVal :=
  match saveReadingProgress st mangaId chapterNumber pageNumber now with
  | .error e => .error e
  | .ok st1 => getReadingProgress st1 reader

/-- The sequence `b = addBookmark(...)`, `removeBookmark(b.id)`, `getBookmarks()`. -/
def addThenRemove (st : Storage) (mangaId chapterNumber pageNumber : JsVal) (nowMs : Int)
    (now : String) : Except JsError JsVal :=
  match addBookmark st mangaId chapterNumber pageNumber nowMs now with
  | .error e => .error e
  | .ok (b, st1) =>
    match getProp b "id" with
    | .error e => .error e
    | .ok id =>
      match removeBookmark st1 id with
      | .error e => .error e
      | .ok st2 => getBookmarks st2

mutual
/-- A value that is a JSON document: `null`, a boolean, an integer, a string,
or an array or object of such values (no `undefined`, `NaN` or infinity
anywhere in it). -/
def isJsonVal : JsVal → Bool
  | .undefined => false
  | .null => true
  | .bool _ => true
  | .num _ => true
  | .nan => false
  | .infinity _ => false
  | .str _ => true
  | .arr items => isJsonItems items
  | .obj fields => isJsonFields fields
/-- Every element is a JSON document. -/
def isJsonItems : List JsVal → Bool
  | [] => true
  | x :: rest => isJsonVal x && isJsonItems rest
/-- Every member value is a JSON document. -/
def isJsonFields : List (String × JsVal) → Bool
  | [] => true
  | (_, v) :: rest => isJsonVal v && isJsonFields rest
end

/-- The `id` of a record, `undefined` when it has none. -/
def recordId (record : JsVal) : JsVal :=
  match getProp record "id" with
  | .ok id => id
  | .error _ => .undefined

/-- No two records of an array have the same `id` (compared with `===`). -/
def distinctIds : JsVal → Prop
  | .arr records => records.Pairwise (fun a b => strictEq (recordId a) (recordId b) = false)
  | _ => False

/-- The results of successive `fetchMangaList()` calls on one instance, one
call per remote outcome. -/
def fetchMangaListCalls : MangaAPI → List FetchOutcome → List (Except JsError JsVal)
  | _, [] => []
  | api, outcome :: rest =>
    (fetchMangaList api outcome).1 :: fetchMangaListCalls (fetchMangaList api outcome).2 rest

/-- The invariant of the `mangaData` map: no two keys are the same value
for the map, and every record is stored under its own `id`. -/
def KeyedById (m : List (JsVal × JsVal)) : Prop :=
  m.Pairwise (fun a b => sameValueZero a.1 b.1 = false) ∧ ∀ e ∈ m, recordId e.2 = e.1

/-! ## `sw.js`: the service worker -/

/-- The constant `STATIC_CACHE`. -/
def STATIC_CACHE : String := "biderja-static-v1"

/-- The constant `DYNAMIC_CACHE`. -/
def DYNAMIC_CACHE : String := "biderja-dynamic-v1"

/-- A request as the worker sees it: the absolute URL (the cache key), the
method, the destination, and the `origin` and `hostname` of `new URL(request.url)`. -/
structure Request where
  url : String
  method : String
  origin : String
  hostname : String
  destination : String
  deriving DecidableEq, Inhabited

/-- A response: status, headers and body. -/
structure Response where
  status : Nat
  headers : List (String × String)
  body : Text
  deriving Inhabited

/-- One cache: the responses stored under request URLs. -/
abbrev Cache := List (String × Response)

/-- The worker's `caches`: named caches in creation order. -/
abbrev CacheStorage := List (String × Cache)

/-- The call `cache.match(url)`; `none` is `undefined`. -/
def cacheMatch : Cache → String → Option Response
  | [], _ => none
  | (k, r) :: rest, url => if k = url then some r else cacheMatch rest url

/-- The call `caches.match(url)`: the first match over the caches in creation order. -/
def cachesMatch : CacheStorage → String → Option Response
  | [], _ => none
  | (_, cache) :: rest, url =>
    match cacheMatch cache url with
    | some r => some r
    | none => cachesMatch rest url

/-- The call `caches.keys()`. -/
def cachesKeys (caches : CacheStorage) : List String := caches.map Prod.fst

/-- The call `caches.delete(name)`. -/
def cachesDelete (caches : CacheStorage) (name : String) : CacheStorage :=
  caches.filter (fun entry => entry.1 != name)

/-- The call `caches.open(name)`: the cache is created when it does not exist. -/
def cachesOpen (caches : CacheStorage) (name : String) : CacheStorage :=
  if (cachesKeys caches).contains name then caches else caches ++ [(name, [])]

/-- The call `cache.put(url, response)` on one cache: an entry under the
same URL is replaced. -/
def cachePut (cache : Cache) (url : String) (response : Response) : Cache :=
  cache.filter (fun entry => entry.1 != url) ++ [(url, response)]

/-- The call `cache.put(url, response)` on the cache named `name`. -/
def putIn (caches : CacheStorage) (name url : String) (response : Response) : CacheStorage :=
  caches.map (fun entry => if entry.1 = name then (entry.1, cachePut entry.2 url response) else entry)

/-- The cache named `name`, when it exists. -/
def cacheNamed : CacheStorage → String → Option Cache
  | [], _ => none
  | (n, cache) :: rest, name => if n = name then some cache else cacheNamed rest name

/-- The worker's world: its caches and the log of the network fetches it made, oldest first. -/
structure SwState where
  caches : CacheStorage
  fetches : List Request
  deriving Inhabited

/-- The network: what the attempt number `n` (counted from 0) to fetch a
request yields, `none` when the fetch fails. -/
abbrev Network := Nat → Request → Option Response

/-- The call `fetch(request)`: one attempt, logged. -/
def doFetch (net : Network) (st : SwState) (request : Request) : Option Response × SwState :=
  (net st.fetches.length request, { st with fetches := st.fetches ++ [request] })

/-- The strategy a request is answered with. -/
inductive Strategy where
  | cacheFirst
  | networkFirst
  deriving DecidableEq, Repr, Inhabited

/-- The `fetch` listener's choice: `none` when it returns without calling
`event.respondWith`; `loc` is `location.origin`. -/
def fetchRoute (loc : String) (request : Request) : Option Strategy :=
  if request.method != "GET" then none
  else if request.origin = loc then some .cacheFirst
  else if includes request.hostname "kimi-web-img.moonshot.cn" then some .networkFirst
  else if includes request.hostname "rosybrown-mouse-406916.hostingersite.com" then some .networkFirst
  else some .cacheFirst

/-- Steps shared by both strategies: `if (networkResponse.status === 200)`
open the dynamic cache and put a clone of the response in it. -/
def cacheIfOk (st : SwState) (request : Request) (networkResponse : Response) : SwState :=
  if networkResponse.status = 200 then
    { st with caches := putIn (cachesOpen st.caches DYNAMIC_CACHE) DYNAMIC_CACHE request.url networkResponse }
  else st

/-- The response `cacheFirst` builds for an image request when offline. -/
def offlineImage : Response :=
  { status := 200
    headers := [("Content-Type", "image/svg+xml")]
    body := .raw "<svg xmlns=\"http://www.w3.org/2000/svg\" width=\"200\" height=\"200\"><rect width=\"200\" height=\"200\" fill=\"#f0f0f0\"/><text x=\"100\" y=\"100\" text-anchor=\"middle\" fill=\"#999\">غير متاح دون اتصال</text></svg>" }

/-- The `try` block of `cacheFirst`. -/
def cacheFirstTry (net : Network) (st : SwState) (request : Request) :
    Except JsError (Option Response) × SwState :=
  match cachesMatch st.caches request.url with
  | some cachedResponse => (.ok (some cachedResponse), st)
  | none =>
    match doFetch net st request with
    | (none, st1) => (.error .networkError, st1)
    | (some networkResponse, st1) => (.ok (some networkResponse), cacheIfOk st1 request networkResponse)

/-- The function `cacheFirst(request)`; its value is `none` when the
JavaScript function returns `undefined`. -/
def cacheFirst (loc : String) (net : Network) (st : SwState) (request : Request) :
    Except JsError (Option Response) × SwState :=
  tryCatch (cacheFirstTry net st request) (fun st1 =>
    if request.destination = "document" then
      (.ok (cachesMatch st1.caches (loc ++ "/index.html")), st1)
    else if request.destination = "image" then
      (.ok (some offlineImage), st1)
    else (.ok none, st1))

/-- The response `networkFirst` builds when offline and nothing is cached. -/
def offlineJson : Response :=
  { status := 503
    headers := [("Content-Type", "application/json")]
    body := jsonStringify (.obj [("error", .str "غير متاح دون اتصال"), ("offline", .bool true)]) }

/-- The `try` block of `networkFirst`. -/
def networkFirstTry (net : Network) (st : SwState) (request : Request) :
    Except JsError (Option Response) × SwState :=
  match doFetch net st request with
  | (none, st1) => (.error .networkError, st1)
  | (some networkResponse, st1) => (.ok (some networkResponse), cacheIfOk st1 request networkResponse)

/-- The function `networkFirst(request)`. -/
def networkFirst (net : Network) (st : SwState) (request : Request) :
    Except JsError (Option Response) × SwState :=
  tryCatch (networkFirstTry net st request) (fun st1 =>
    match cachesMatch st1.caches request.url with
    | some cachedResponse => (.ok (some cachedResponse), st1)
    | none => (.ok (some offlineJson), st1))

/-- The `fetch` listener: `none` when the worker does not answer the request. -/
def onFetch (loc : String) (net : Network) (st : SwState) (request : Request) :
    Option (Except JsError (Option Response) × SwState) :=
  match fetchRoute loc request with
  | none => none
  | some .cacheFirst => some (cacheFirst loc net st request)
  | some .networkFirst => some (networkFirst net st request)

/-- The `activate` listener: every cache name other than the two current
ones is passed to `caches.delete`. -/
def onActivate (caches : CacheStorage) : CacheStorage :=
  (cachesKeys caches).foldl (fun acc cacheName =>
    if cacheName != STATIC_CACHE && cacheName != DYNAMIC_CACHE then cachesDelete acc cacheName
    else acc) caches

/-! ## `main.js`: class `MangaReader`

The file opens with the bare identifier `js`, an expression statement of its
own; the class is embedded as it is declared after it. -/

/-- The image an element shows: `<img src=... alt="Page n" ...>`. -/
structure Img where
  src : JsVal
  alt : Int
  deriving Inhabited

/-- The properties of a page element the reader writes. -/
structure Element where
  innerHTML : Option Img
  textContent : String
  disabled : Bool
  deriving Inhabited

/-- The elements `getElementById` looks up; `none` when the page has no such element. -/
structure Dom where
  currentPage : Option Element
  nextPage : Option Element
  pageInfo : Option Element
  prevPage : Option Element
  deriving Inhabited

/-- The fields of a `MangaReader` instance. -/
structure MangaReader where
  currentPage : Int
  totalPages : Int
  currentChapter : Int
  currentMangaId : String
  readingDirection : String
  isAnimating : Bool
  mangaAPI : MangaAPI
  mangaData : JsVal
  chapterData : JsVal
  deriving Inhabited

/-- The fields as `constructor()` assigns them, with a `MangaAPI` in its initial fields. -/
def MangaReader.initial : MangaReader :=
  { currentPage := 0
    totalPages := 0
    currentChapter := 1
    currentMangaId := "jujutsu-kaisen"
    readingDirection := "rtl"
    isAnimating := false
    mangaAPI := MangaAPI.initial
    mangaData := .null
    chapterData := .null }

/-- A reader together with the document it drives. -/
structure View where
  reader : MangaReader
  dom : Dom
  deriving Inhabited

/-- The direction argument of `animatePageFlip`. -/
inductive Flip where
  | next
  | prev
  deriving DecidableEq, Repr, Inhabited

/-- How a call that ran to its end settled, with the state it left. -/
inductive Settled where
  | returned (v : View)
  | threw (e : JsError) (v : View)

/-- How an `async` page turn stands at its `await`. -/
inductive Begun where
  | returned (v : View)
  | awaiting (v : View) (direction : Flip) (timed : Bool)
  | threw (e : JsError) (v : View)

/-- The method `updatePageDisplay()`. -/
def updatePageDisplay (r : MangaReader) (dom : Dom) : Except JsError Dom := do
  let dom1 ← match dom.currentPage with
    | none => pure dom
    | some currentPageEl => do
      let pages ← getProp r.mangaData "pages"
      let pageData ← getIndex pages r.currentPage
      if truthy pageData then
        let image ← getProp pageData "image"
        pure { dom with
          currentPage := some { currentPageEl with innerHTML := some ⟨image, r.currentPage + 1⟩ }
          pageInfo := dom.pageInfo.map (fun el =>
            { el with textContent := toString (r.currentPage + 1) ++ " / " ++ toString r.totalPages }) }
      else pure dom
  pure { dom1 with
    prevPage := dom1.prevPage.map (fun el => { el with disabled := r.currentPage == 0 })
    nextPage := dom1.nextPage.map (fun el => { el with disabled := decide (r.currentPage ≥ r.totalPages - 1) }) }

/-- The executor of the promise `animatePageFlip(direction)` builds; the
flag tells whether a timed flip of 600 ms was started (both elements exist)
or the promise resolved at once.  Style writes are not represented. -/
def animatePageFlip (r : MangaReader) (dom : Dom) (direction : Flip) : Except JsError (Dom × Bool) :=
  match dom.currentPage, dom.nextPage with
  | some _, some nextPageEl =>
    let nextPageIndex := if direction = .next then r.currentPage + 1 else r.currentPage - 1
    if nextPageIndex ≥ 0 ∧ nextPageIndex < r.totalPages then do
      let pages ← getProp r.mangaData "pages"
      let pageData ← getIndex pages nextPageIndex
      let image ← getProp pageData "image"
      pure ({ dom with nextPage := some { nextPageEl with innerHTML := some ⟨image, nextPageIndex + 1⟩ } }, true)
    else pure (dom, true)
  | _, _ => pure (dom, false)

/-- The method `nextPage()` up to its `await`. -/
def nextPageBegin (v : View) : Begun :=
  if v.reader.isAnimating || decide (v.reader.currentPage ≥ v.reader.totalPages - 1) then .returned v
  else
    let r1 := { v.reader with isAnimating := true }
    match animatePageFlip r1 v.dom .next with
    | .error e => .threw e ⟨r1, v.dom⟩
    | .ok (dom1, timed) => .awaiting ⟨r1, dom1⟩ .next timed

/-- The method `nextPage()` after its `await`: `this.currentPage++`,
`this.updatePageDisplay()`, `this.isAnimating = false`. -/
def nextPageResume (v : View) : Settled :=
  let r1 := { v.reader with currentPage := v.reader.currentPage + 1 }
  match updatePageDisplay r1 v.dom with
  | .error e => .threw e ⟨r1, v.dom⟩
  | .ok dom1 => .returned ⟨{ r1 with isAnimating := false }, dom1⟩

/-- The method `nextPage()` run to completion with nothing in between. -/
def nextPage (v : View) : Settled :=
  match nextPageBegin v with
  | .returned v1 => .returned v1
  | .threw e v1 => .threw e v1
  | .awaiting v1 _ _ => nextPageResume v1

/-- The method `previousPage()` up to its `await`. -/
def previousPageBegin (v : View) : Begun :=
  if v.reader.isAnimating || decide (v.reader.currentPage ≤ 0) then .returned v
  else
    let r1 := { v.reader with isAnimating := true }
    match animatePageFlip r1 v.dom .prev with
    | .error e => .threw e ⟨r1, v.dom⟩
    | .ok (dom1, timed) => .awaiting ⟨r1, dom1⟩ .prev timed

/-- The method `previousPage()` after its `await`: `this.currentPage--`,
`this.updatePageDisplay()`, `this.isAnimating = false`. -/
def previousPageResume (v : View) : Settled :=
  let r1 := { v.reader with currentPage := v.reader.currentPage - 1 }
  match updatePageDisplay r1 v.dom with
  | .error e => .threw e ⟨r1, v.dom⟩
  | .ok dom1 => .returned ⟨{ r1 with isAnimating := false }, dom1⟩

/-- The method `previousPage()` run to completion with nothing in between. -/
def previousPage (v : View) : Settled :=
  match previousPageBegin v with
  | .returned v1 => .returned v1
  | .threw e v1 => .threw e v1
  | .awaiting v1 _ _ => previousPageResume v1

/-- The method `loadChapter(chapterNum)`; `showLoadingAnimation()` only
toggles a class of `#loadingOverlay` and is not represented. -/
def loadChapter (v : View) (chapterNum : Int) : Settled :=
  let r1 := { v.reader with currentChapter := chapterNum, currentPage := 0 }
  match updatePageDisplay r1 v.dom with
  | .error e => .threw e ⟨r1, v.dom⟩
  | .ok dom1 => .returned ⟨r1, dom1⟩

/-- The method `loadFallbackData()`: it calls `this.initializeMangaData()`,
which the class does not define, and throws a `TypeError` before any assignment. -/
def loadFallbackData (v : View) : Settled := .threw .typeError v

/-- The callback of `chapterData.pages.map` in `loadMangaData`. -/
def displayPage (page : JsVal) : Except JsError JsVal := do
  let id ← getProp page "id"
  let imageUrl ← getProp page "imageUrl"
  pure (.obj [("id", id), ("image", imageUrl)])

/-- The assignments of the `try` block of `loadMangaData`, from the two
awaited results: `this.mangaData = {...}` and `this.totalPages = this.mangaData.pages.length`. -/
def assignMangaData (r : MangaReader) (mangaDetails chapterData : JsVal) : Except JsError MangaReader := do
  let arabicTitle ← getProp mangaDetails "arabicTitle"
  let title ← getProp mangaDetails "title"
  let pagesIn ← getProp chapterData "pages"
  let items ← arrayItems pagesIn
  let pages ← mapList displayPage items
  pure { r with
    mangaData := .obj [
      ("title", arabicTitle),
      ("englishTitle", title),
      ("chapter", .str ("الفصل " ++ toString r.currentChapter)),
      ("pages", .arr pages)]
    totalPages := pages.length }

/-- The method `loadMangaData()`, given what the two remote calls yield. -/
def loadMangaData (v : View) (detailsOutcome chapterOutcome : FetchOutcome) : Settled :=
  match fetchMangaDetails v.reader.mangaAPI (.str v.reader.currentMangaId) detailsOutcome with
  | (.error _, api1) => loadFallbackData ⟨{ v.reader with mangaAPI := api1 }, v.dom⟩
  | (.ok mangaDetails, api1) =>
    match fetchChapterPages api1 (.str v.reader.currentMangaId) (.num v.reader.currentChapter)
        chapterOutcome with
    | (.error _, api2) => loadFallbackData ⟨{ v.reader with mangaAPI := api2 }, v.dom⟩
    | (.ok chapterData, api2) =>
      let r1 := { v.reader with mangaAPI := api2 }
      match assignMangaData r1 mangaDetails chapterData with
      | .error _ => loadFallbackData ⟨r1, v.dom⟩
      | .ok r2 =>
        match updatePageDisplay r2 v.dom with
        | .error _ => loadFallbackData ⟨r2, v.dom⟩
        | .ok dom1 => .returned ⟨r2, dom1⟩

/-- The state a settled call leaves. -/
def Settled.view : Settled → View
  | .returned v => v
  | .threw _ v => v

/-- The call `new MangaReader()`: the fields are assigned, then
`new MangaAPI()` is evaluated for the field `mangaAPI`; when it throws, the
constructor throws before `this.init()` is reached. -/
def MangaReader.construct : Except JsError MangaReader :=
  match MangaAPI.construct with
  | .error e => .error e
  | .ok api => .ok { MangaReader.initial with mangaAPI := api }

/-- The value of `window.location.pathname.split('/').pop() || 'index.html'`. -/
def currentPageName (pathname : String) : String :=
  let last := String.mk ((pathname.data.reverse.takeWhile (fun c => c != '/')).reverse)
  if last = "" then "index.html" else last

/-- What a run of the `DOMContentLoaded` listener did: how it ended (the
error is what it threw) and the readers on which it called
`updatePageDisplay()`, in order. -/
structure ListenerRun where
  result : Except JsError View
  displayCalls : List MangaReader

/-- The `DOMContentLoaded` listener: the reader is constructed and, on a page
other than `library.html` and `settings.html`, `updatePageDisplay()` is called
at once. -/
def onDOMContentLoaded (pathname : String) (dom : Dom) : ListenerRun :=
  match MangaReader.construct with
  | .error e => { result := .error e, displayCalls := [] }
  | .ok mangaReader =>
    if currentPageName pathname = "library.html" then
      { result := .ok ⟨mangaReader, dom⟩, displayCalls := [] }
    else if currentPageName pathname = "settings.html" then
      { result := .ok ⟨mangaReader, dom⟩, displayCalls := [] }
    else
      match updatePageDisplay mangaReader dom with
      | .error e => { result := .error e, displayCalls := [mangaReader] }
      | .ok dom1 => { result := .ok ⟨mangaReader, dom1⟩, displayCalls := [mangaReader] }

/-- Whether `updatePageDisplay()` on this reader and document returns without throwing. -/
def displaysWithoutError (r : MangaReader) (dom : Dom) : Bool :=
  match updatePageDisplay r dom with
  | .ok _ => true
  | .error _ => false

/-- A reading session: the reader and its document, and the page flip that
was started and whose 600 ms animation has not ended yet. -/
structure Session where
  view : View
  pending : Option Flip

/-- What can happen in a session: a click or swipe calling `nextPage()` or
`previousPage()`, the end of the running animation, and a change of the
chapter selector calling `loadChapter`. -/
inductive Event where
  | nextPage
  | previousPage
  | flipDone
  | loadChapter (chapterNum : Int)

/-- What a begun page turn leaves in the session: a timed flip stays
pending, a flip whose promise resolved at once completes before any other event. -/
def Session.afterBegin (s : Session) (finish : View → Settled) : Begun → Session
  | .returned v => { s with view := v }
  | .threw _ v => { s with view := v }
  | .awaiting v direction timed =>
    if timed then { view := v, pending := some direction }
    else { s with view := (finish v).view }

/-- One event of a session. -/
def Session.step (s : Session) : Event → Session
  | .nextPage => s.afterBegin nextPageResume (nextPageBegin s.view)
  | .previousPage => s.afterBegin previousPageResume (previousPageBegin s.view)
  | .flipDone =>
    match s.pending with
    | none => s
    | some .next => { view := (nextPageResume s.view).view, pending := none }
    | some .prev => { view := (previousPageResume s.view).view, pending := none }
  | .loadChapter chapterNum => { s with view := (loadChapter s.view chapterNum).view }

/-- A session after a sequence of events. -/
def Session.run (s : Session) (events : List Event) : Session := events.foldl Session.step s

/-- The closure variables `startX`, `startY` of `setupTouchGestures`. -/
structure Gesture where
  startX : Int
  startY : Int
  deriving DecidableEq, Repr, Inhabited

/-- The `touchstart` listener. -/
def onTouchStart (clientX clientY : Int) : Gesture := { startX := clientX, startY := clientY }

/-- The `touchend` listener: the page turn it begins, if any (the method it
calls and how that call stands), and the closure variables it leaves. -/
def onTouchEnd (v : View) (g : Gesture) (endX endY : Int) : Option (Flip × Begun) × Gesture :=
  if g.startX = 0 ∨ g.startY = 0 then (none, g)
  else
    let diffX := g.startX - endX
    let diffY := g.startY - endY
    let call :=
      if |diffX| > |diffY| ∧ |diffX| > 50 then
        if diffX > 0 then some (Flip.next, nextPageBegin v)
        else some (Flip.prev, previousPageBegin v)
      else none
    (call, { startX := 0, startY := 0 })

/-! ## When a remote call or the decoding of its result fails -/

/-- The values on which a property read throws: `undefined` and `null`. -/
def isNullish : JsVal → Bool
  | .undefined => true
  | .null => true
  | _ => false

/-- Failure of the list call: the fetch rejects, the body is not JSON, the
JSON is not an array, or the array has a `null` element. -/
def mangaListFails : FetchOutcome → Bool
  | .json (.arr items) => items.any isNullish
  | _ => true

/-- Failure of the details call and of the search call: the fetch rejects,
the body is not JSON, or the JSON is `null`. -/
def recordFails : FetchOutcome → Bool
  | .json data => isNullish data
  | _ => true

/-- Failure of the chapter call: the fetch rejects, the body is not JSON,
`data.pages` is not an array, or that array has a `null` element. -/
def chapterPagesFails : FetchOutcome → Bool
  | .json data =>
    match getProp data "pages" with
    | .ok (.arr items) => items.any isNullish
    | _ => true
  | _ => true

/-- The reader holds its pages: `mangaData.pages` is an array of
`totalPages` page records. -/
def pagesLoaded (r : MangaReader) : Bool :=
  match getProp r.mangaData "pages" with
  | .ok (.arr pages) => decide ((pages.length : Int) = r.totalPages) && pages.all (fun p => !isNullish p)
  | _ => false

/-! ## Sample inputs -/

/-- A reader page with all four elements present and empty. -/
def sampleDom : Dom :=
  { currentPage := some ⟨none, "", false⟩
    nextPage := some ⟨none, "", false⟩
    pageInfo := some ⟨none, "", false⟩
    prevPage := some ⟨none, "", false⟩ }

/-- The worker's origin in the samples. -/
def sampleOrigin : String := "https://biderja.example"

/-- A cached copy of the start page. -/
def sampleIndexResponse : Response :=
  { status := 200, headers := [("Content-Type", "text/html")], body := .raw "<html></html>" }

/-- Caches after installation: the static cache holds the start page. -/
def sampleCaches : CacheStorage :=
  [(STATIC_CACHE, [(sampleOrigin ++ "/index.html", sampleIndexResponse)])]

/-- A script requested from another site. -/
def scriptRequest : Request :=
  { url := "https://cdn.example.net/lib.js"
    method := "GET"
    origin := "https://cdn.example.net"
    hostname := "cdn.example.net"
    destination := "script" }

/-- A network on which every fetch fails. -/
def offlineNetwork : Network := fun _ _ => none

/-- The entry of the dynamic cache under `url`, when there is one. -/
def dynamicEntry (caches : CacheStorage) (url : String) : Option Response :=
  match cacheNamed caches DYNAMIC_CACHE with
  | none => none
  | some cache => cacheMatch cache url

/-- The progress saved for the manga whose id is the number 1. -/
def progressOfOne : JsVal :=
  .obj [
    ("mangaId", .num 1),
    ("chapterNumber", .num 5),
    ("pageNumber", .num 6),
    ("timestamp", .str "2024-01-01T00:00:00.000Z")]

/-- The storage after that progress was saved to an empty storage. -/
def storageWithProgress : Storage := [("progress_1", .json progressOfOne)]

/-- A bookmark added at the millisecond 1700000000000. -/
def firstBookmark : JsVal :=
  .obj [
    ("id", .num 1700000000000),
    ("mangaId", .str "one-piece"),
    ("chapterNumber", .num 1),
    ("pageNumber", .num 4),
    ("timestamp", .str "2023-11-14T22:13:20.000Z")]

/-- The storage after that first bookmark was added to an empty storage. -/
def storageWithBookmark : Storage := [("bookmarks", .json (.arr [firstBookmark]))]

/-- The reader after `loadMangaData()` completed with both remote calls failing:
it holds the three sample pages. -/
def sampleLoaded : View :=
  (loadMangaData ⟨MangaReader.initial, sampleDom⟩ .networkError .networkError).view

/-- A response of the list endpoint that lists the id `one-piece` twice. -/
def duplicateIdOutcome : FetchOutcome :=
  .json (.arr [
    .obj [("id", .str "one-piece"), ("title", .str "One Piece")],
    .obj [("id", .str "naruto"), ("title", .str "Naruto")],
    .obj [("id", .str "one-piece"), ("title", .str "One Piece (2)")]])

/-- Whether `data.pages` is an array. -/
def hasPagesArray (data : JsVal) : Bool :=
  match getProp data "pages" with
  | .ok (.arr _) => true
  | _ => false

/-! ## Properties of `MangaReader.nextPage` -/

/-- C1: navigating past the last page is a no-op.  In every state with
`currentPage >= totalPages - 1` (this includes `totalPages = 0`), `nextPage()`
returns at its guard: no field of the reader and nothing in the document
changes, and `animatePageFlip` is not called. -/
theorem nextPage_past_last_is_noop (v : View)
    (h : v.reader.currentPage ≥ v.reader.totalPages - 1) :
    nextPageBegin v = .returned v ∧ nextPage v = .returned v := by
  have hb : nextPageBegin v = .returned v := by
    unfold nextPageBegin
    simp [h]
  exact ⟨hb, by simp [nextPage, hb]⟩

/-- Witness of C1: the reader as constructed (`totalPages = 0`). -/
theorem nextPage_past_last_is_noop_witness :
    (View.mk MangaReader.initial sampleDom).reader.currentPage
        ≥ (View.mk MangaReader.initial sampleDom).reader.totalPages - 1 ∧
      nextPageBegin (View.mk MangaReader.initial sampleDom) = .returned (View.mk MangaReader.initial sampleDom) ∧
      nextPage (View.mk MangaReader.initial sampleDom) = .returned (View.mk MangaReader.initial sampleDom) :=
  ⟨by decide, nextPage_past_last_is_noop _ (by decide)⟩

/-! ## Properties of `MangaAPI` -/

/-- The `catch` branch of `fetchChapterPages` is taken when `data.pages` is not an array. -/
theorem fetchChapterPagesTry_error_of_no_pages (api : MangaAPI) (mangaId chapterNumber data : JsVal)
    (h : hasPagesArray data = false) :
    ∃ e, fetchChapterPagesTry api mangaId chapterNumber (.json data) = (.error e, api) := by
  unfold hasPagesArray at h
  unfold fetchChapterPagesTry
  simp only [awaitJson]
  cases hp : getProp data "pages" with
  | error e => exact ⟨e, by simp [bind, Except.bind]⟩
  | ok pages =>
    rw [hp] at h
    cases pages with
    | arr items => simp at h
    | _ => exact ⟨.typeError, by simp [bind, Except.bind, callMap]⟩

/-- C2: fetch failure falls back to sample data.  When the remote call of
`fetchChapterPages` fails (the fetch rejects, the body is not JSON, or the
JSON has no `pages` array), the method returns
`getFallbackChapterData(mangaId, chapterNumber)`: a record that echoes
`mangaId` and `chapterNumber` and holds the three sample pages with
`pageNumber` 1, 2, 3 in that order. -/
theorem fetchChapterPages_failure_falls_back (api : MangaAPI) (mangaId chapterNumber : JsVal)
    (outcome : FetchOutcome)
    (h : outcome = .networkError ∨ outcome = .notJson ∨
      ∃ data, outcome = .json data ∧ hasPagesArray data = false) :
    (fetchChapterPages api mangaId chapterNumber outcome).1
        = .ok (getFallbackChapterData mangaId chapterNumber) ∧
      getProp (getFallbackChapterData mangaId chapterNumber) "mangaId" = .ok mangaId ∧
      getProp (getFallbackChapterData mangaId chapterNumber) "chapterNumber" = .ok chapterNumber ∧
      ∃ p1 p2 p3,
        getProp (getFallbackChapterData mangaId chapterNumber) "pages" = .ok (.arr [p1, p2, p3]) ∧
        getProp p1 "pageNumber" = .ok (.num 1) ∧
        getProp p2 "pageNumber" = .ok (.num 2) ∧
        getProp p3 "pageNumber" = .ok (.num 3) := by
  refine ⟨?_, rfl, rfl, _, _, _, rfl, rfl, rfl, rfl⟩
  rcases h with h | h | ⟨data, h, hp⟩
  · subst h; rfl
  · subst h; rfl
  · subst h
    obtain ⟨e, he⟩ := fetchChapterPagesTry_error_of_no_pages api mangaId chapterNumber data hp
    simp [fetchChapterPages, he, tryCatch]

/-- Witness of C2: the server answers `{"error": "not found"}`. -/
theorem fetchChapterPages_failure_falls_back_witness :
    hasPagesArray (.obj [("error", .str "not found")]) = false ∧
      (fetchChapterPages MangaAPI.initial (.str "jujutsu-kaisen") (.num 1)
          (.json (.obj [("error", .str "not found")]))).1
        = .ok (getFallbackChapterData (.str "jujutsu-kaisen") (.num 1)) :=
  ⟨rfl, (fetchChapterPages_failure_falls_back MangaAPI.initial (.str "jujutsu-kaisen") (.num 1)
    (.json (.obj [("error", .str "not found")])) (Or.inr (Or.inr ⟨_, rfl, rfl⟩))).1⟩

/-- A property read throws exactly on `undefined` and `null`. -/
theorem getProp_error_of_nullish (v : JsVal) (k : String) (h : isNullish v = true) :
    getProp v k = .error .typeError := by
  cases v <;> simp_all [isNullish, getProp]

/-- A property read of any other value succeeds. -/
theorem getProp_ok_of_not_nullish (v : JsVal) (k : String) (h : isNullish v = false) :
    ∃ w, getProp v k = .ok w := by
  cases v <;> simp_all [isNullish, getProp]

/-- The record literal throws on `undefined` and `null`. -/
theorem mangaRecord_error_of_nullish (v : JsVal) (h : isNullish v = true) :
    mangaRecord v = .error .typeError := by
  simp [mangaRecord, getProp_error_of_nullish v _ h, bind, Except.bind]

/-- The record literal is built for every other value. -/
theorem mangaRecord_ok_of_not_nullish (v : JsVal) (h : isNullish v = false) :
    ∃ r, mangaRecord v = .ok r := by
  cases v <;> simp_all [isNullish, mangaRecord, getProp, bind, Except.bind, pure, Except.pure]

/-- The page literal throws on `undefined` and `null`. -/
theorem pageRecord_error_of_nullish (v : JsVal) (h : isNullish v = true) :
    pageRecord v = .error .typeError := by
  simp [pageRecord, getProp_error_of_nullish v _ h, bind, Except.bind]

/-- The page literal is built for every other value. -/
theorem pageRecord_ok_of_not_nullish (v : JsVal) (h : isNullish v = false) :
    ∃ r, pageRecord v = .ok r := by
  cases v <;> simp_all [isNullish, pageRecord, getProp, bind, Except.bind, pure, Except.pure]

/-- Storing one element throws on `undefined` and `null`. -/
theorem storeManga_error_of_nullish (m : List (JsVal × JsVal)) (v : JsVal) (h : isNullish v = true) :
    storeManga m v = .error .typeError := by
  simp [storeManga, getProp_error_of_nullish v _ h, bind, Except.bind]

/-- Storing one element succeeds for every other value. -/
theorem storeManga_ok_of_not_nullish (m : List (JsVal × JsVal)) (v : JsVal) (h : isNullish v = false) :
    ∃ m', storeManga m v = .ok m' := by
  obtain ⟨w, hw⟩ := getProp_ok_of_not_nullish v "id" h
  obtain ⟨r, hr⟩ := mangaRecord_ok_of_not_nullish v h
  exact ⟨mapSet m w r, by simp [storeManga, hw, hr, bind, Except.bind, pure, Except.pure]⟩

/-- The `forEach` of `fetchMangaList` throws when an element is `null`. -/
theorem forEachState_storeManga_error (items : List JsVal) :
    ∀ m : List (JsVal × JsVal), items.any isNullish = true →
      ∃ m' e, forEachState storeManga m items = (m', some e) := by
  induction items with
  | nil => intro m h; simp at h
  | cons x rest ih =>
    intro m h
    cases hx : isNullish x with
    | true =>
      exact ⟨m, .typeError, by simp [forEachState, storeManga_error_of_nullish m x hx]⟩
    | false =>
      obtain ⟨m1, hm1⟩ := storeManga_ok_of_not_nullish m x hx
      have hrest : rest.any isNullish = true := by simpa [hx] using h
      obtain ⟨m', e, he⟩ := ih m1 hrest
      exact ⟨m', e, by simp [forEachState, hm1, he]⟩

/-- The `forEach` of `fetchMangaList` completes when no element is `null`. -/
theorem forEachState_storeManga_ok (items : List JsVal) :
    ∀ m : List (JsVal × JsVal), items.any isNullish = false →
      ∃ m', forEachState storeManga m items = (m', none) := by
  induction items with
  | nil => intro m _; exact ⟨m, rfl⟩
  | cons x rest ih =>
    intro m h
    have hx : isNullish x = false := by
      cases hx : isNullish x <;> simp_all
    have hrest : rest.any isNullish = false := by
      cases hr : rest.any isNullish <;> simp_all
    obtain ⟨m1, hm1⟩ := storeManga_ok_of_not_nullish m x hx
    obtain ⟨m', he⟩ := ih m1 hrest
    exact ⟨m', by simp [forEachState, hm1, he]⟩

/-- The `map` of `fetchChapterPages` throws when an element is `null`. -/
theorem mapList_pageRecord_error (items : List JsVal) (h : items.any isNullish = true) :
    ∃ e, mapList pageRecord items = .error e := by
  induction items with
  | nil => simp at h
  | cons x rest ih =>
    cases hx : isNullish x with
    | true => exact ⟨.typeError, by simp [mapList, pageRecord_error_of_nullish x hx]⟩
    | false =>
      obtain ⟨r, hr⟩ := pageRecord_ok_of_not_nullish x hx
      have hrest : rest.any isNullish = true := by simpa [hx] using h
      obtain ⟨e, he⟩ := ih hrest
      exact ⟨e, by simp [mapList, hr, he]⟩

/-- The fallback for manga details never throws. -/
theorem getFallbackMangaData_ok (mangaId : JsVal) : ∃ v, getFallbackMangaData mangaId = .ok v := by
  unfold getFallbackMangaData getFallbackMangaList
  simp only [arrayItems, bind, Except.bind, findFirst, getProp, lookupField, pure, Except.pure, if_true]
  cases h1 : strictEq (.str "jujutsu-kaisen") mangaId <;>
    cases h2 : strictEq (.str "one-piece") mangaId <;>
    simp [truthy, getIndex, findFirst]

/-- A `filter` whose callback never throws on the elements does not throw. -/
theorem filterList_ok (p : JsVal → Except JsError Bool) (items : List JsVal)
    (h : ∀ x ∈ items, ∃ b, p x = .ok b) : ∃ kept, filterList p items = .ok kept := by
  induction items with
  | nil => exact ⟨[], rfl⟩
  | cons x rest ih =>
    obtain ⟨b, hb⟩ := h x (List.mem_cons_self x rest)
    obtain ⟨kept, hk⟩ := ih (fun y hy => h y (List.mem_cons_of_mem x hy))
    exact ⟨if b then x :: kept else kept, by simp [filterList, hb, hk]⟩

/-- The search callback does not throw on a record whose title, Arabic title and genre are strings. -/
theorem matchesQuery_ok (lower : String → String) (q : String) (fields : List (String × JsVal))
    (t a g : String) (ht : lookupField "title" fields = .str t)
    (ha : lookupField "arabicTitle" fields = .str a) (hg : lookupField "genre" fields = .str g) :
    ∃ b, matchesQuery lower q (.obj fields) = .ok b := by
  simp only [matchesQuery, getProp, ht, ha, hg, callToLowerCase, bind, Except.bind, pure, Except.pure]
  split_ifs <;> simp

/-- The fallback search never throws on a string query. -/
theorem searchFallbackManga_ok (lower : String → String) (query : String) :
    ∃ v, searchFallbackManga lower (.str query) = .ok v := by
  have hitems : ∀ x ∈ (match getFallbackMangaList with | .arr items => items | _ => []),
      ∃ b, matchesQuery lower (lower query) x = .ok b := by
    intro x hx
    simp only [getFallbackMangaList, List.mem_cons, List.mem_singleton, List.not_mem_nil, or_false] at hx
    rcases hx with hx | hx
    · subst hx; exact matchesQuery_ok lower _ _ _ _ _ rfl rfl rfl
    · subst hx; exact matchesQuery_ok lower _ _ _ _ _ rfl rfl rfl
  obtain ⟨kept, hk⟩ := filterList_ok _ _ hitems
  refine ⟨.arr kept, ?_⟩
  simp only [getFallbackMangaList] at hk
  simp only [searchFallbackManga, getFallbackMangaList, callToLowerCase, arrayItems, bind,
    Except.bind, hk, pure, Except.pure]

/-- A `try`/`catch` whose handler does not throw does not throw. -/
theorem tryCatch_ok {σ α : Type} (body : Except JsError α × σ)
    (handler : σ → Except JsError α × σ) (h : ∀ st, ∃ v, (handler st).1 = .ok v) :
    ∃ v, (tryCatch body handler).1 = .ok v := by
  obtain ⟨r, st⟩ := body
  cases r with
  | ok v => exact ⟨v, rfl⟩
  | error e => simpa [tryCatch] using h st

/-- The `try` block of `fetchMangaList` throws when the list call fails. -/
theorem fetchMangaListTry_error (api : MangaAPI) (outcome : FetchOutcome)
    (h : mangaListFails outcome = true) :
    ∃ e api', fetchMangaListTry api outcome = (.error e, api') := by
  cases outcome with
  | networkError => exact ⟨_, api, rfl⟩
  | notJson => exact ⟨_, api, rfl⟩
  | json data =>
    cases data with
    | arr items =>
      obtain ⟨m', e, he⟩ := forEachState_storeManga_error items api.mangaData (by simpa [mangaListFails] using h)
      exact ⟨e, { api with mangaData := m' }, by simp [fetchMangaListTry, awaitJson, arrayItems, he]⟩
    | _ => exact ⟨_, api, rfl⟩

/-- The `try` block of `fetchMangaDetails` throws when the details call fails. -/
theorem fetchMangaDetailsTry_error (api : MangaAPI) (outcome : FetchOutcome)
    (h : recordFails outcome = true) :
    ∃ e, fetchMangaDetailsTry api outcome = (.error e, api) := by
  cases outcome with
  | networkError => exact ⟨_, rfl⟩
  | notJson => exact ⟨_, rfl⟩
  | json data =>
    exact ⟨.typeError, by simp [fetchMangaDetailsTry, awaitJson, mangaRecord_error_of_nullish data (by simpa [recordFails] using h)]⟩

/-- The `try` block of `searchManga` throws when the search call fails. -/
theorem searchMangaTry_error (api : MangaAPI) (outcome : FetchOutcome)
    (h : recordFails outcome = true) :
    ∃ e, searchMangaTry api outcome = (.error e, api) := by
  cases outcome with
  | networkError => exact ⟨_, rfl⟩
  | notJson => exact ⟨_, rfl⟩
  | json data =>
    exact ⟨.typeError, by simp [searchMangaTry, awaitJson, getProp_error_of_nullish data _ (by simpa [recordFails] using h)]⟩

/-- The `try` block of `fetchChapterPages` throws when the chapter call fails. -/
theorem fetchChapterPagesTry_error (api : MangaAPI) (mangaId chapterNumber : JsVal)
    (outcome : FetchOutcome) (h : chapterPagesFails outcome = true) :
    ∃ e, fetchChapterPagesTry api mangaId chapterNumber outcome = (.error e, api) := by
  cases outcome with
  | networkError => exact ⟨_, rfl⟩
  | notJson => exact ⟨_, rfl⟩
  | json data =>
    cases hp : hasPagesArray data with
    | false => exact fetchChapterPagesTry_error_of_no_pages api mangaId chapterNumber data hp
    | true =>
      unfold hasPagesArray at hp
      unfold chapterPagesFails at h
      cases hpages : getProp data "pages" with
      | error e => simp [hpages] at hp
      | ok pages =>
        cases pages with
        | arr items =>
          simp only [hpages] at h
          obtain ⟨e, he⟩ := mapList_pageRecord_error items h
          exact ⟨e, by simp [fetchChapterPagesTry, awaitJson, hpages, bind, Except.bind, callMap, he]⟩
        | _ => simp [hpages] at hp

/-- The `map` of `fetchChapterPages` completes when no element is `null`. -/
theorem mapList_pageRecord_ok (items : List JsVal) (h : items.any isNullish = false) :
    ∃ pages, mapList pageRecord items = .ok pages := by
  induction items with
  | nil => exact ⟨[], rfl⟩
  | cons x rest ih =>
    have hx : isNullish x = false := by
      cases hx : isNullish x <;> simp_all
    have hrest : rest.any isNullish = false := by
      cases hr : rest.any isNullish <;> simp_all
    obtain ⟨r, hr⟩ := pageRecord_ok_of_not_nullish x hx
    obtain ⟨pages, hp⟩ := ih hrest
    exact ⟨r :: pages, by simp [mapList, hr, hp]⟩

/-- The `try` block of `fetchMangaList` completes when the list call does not fail. -/
theorem fetchMangaListTry_ok (api : MangaAPI) (outcome : FetchOutcome)
    (h : mangaListFails outcome = false) :
    ∃ v api', fetchMangaListTry api outcome = (.ok v, api') := by
  cases outcome with
  | networkError => simp [mangaListFails] at h
  | notJson => simp [mangaListFails] at h
  | json data =>
    cases data with
    | arr items =>
      obtain ⟨m', he⟩ := forEachState_storeManga_ok items api.mangaData (by simpa [mangaListFails] using h)
      exact ⟨.arr (m'.map Prod.snd), { api with mangaData := m' },
        by simp [fetchMangaListTry, awaitJson, arrayItems, he]⟩
    | _ => simp [mangaListFails] at h

/-- The `try` block of `fetchMangaDetails` completes when the details call does not fail. -/
theorem fetchMangaDetailsTry_ok (api : MangaAPI) (outcome : FetchOutcome)
    (h : recordFails outcome = false) :
    ∃ v api', fetchMangaDetailsTry api outcome = (.ok v, api') := by
  cases outcome with
  | networkError => simp [recordFails] at h
  | notJson => simp [recordFails] at h
  | json data =>
    obtain ⟨r, hr⟩ := mangaRecord_ok_of_not_nullish data (by simpa [recordFails] using h)
    exact ⟨r, { api with currentManga := r }, by simp [fetchMangaDetailsTry, awaitJson, hr]⟩

/-- The `try` block of `searchManga` completes when the search call does not fail. -/
theorem searchMangaTry_ok (api : MangaAPI) (outcome : FetchOutcome)
    (h : recordFails outcome = false) :
    ∃ v, searchMangaTry api outcome = (.ok v, api) := by
  cases outcome with
  | networkError => simp [recordFails] at h
  | notJson => simp [recordFails] at h
  | json data =>
    obtain ⟨w, hw⟩ := getProp_ok_of_not_nullish data "results" (by simpa [recordFails] using h)
    exact ⟨jsOr w (.arr []), by simp [searchMangaTry, awaitJson, hw]⟩

/-- The `try` block of `fetchChapterPages` completes when the chapter call does not fail. -/
theorem fetchChapterPagesTry_ok (api : MangaAPI) (mangaId chapterNumber : JsVal)
    (outcome : FetchOutcome) (h : chapterPagesFails outcome = false) :
    ∃ v api', fetchChapterPagesTry api mangaId chapterNumber outcome = (.ok v, api') := by
  cases outcome with
  | networkError => simp [chapterPagesFails] at h
  | notJson => simp [chapterPagesFails] at h
  | json data =>
    unfold chapterPagesFails at h
    cases hpages : getProp data "pages" with
    | error e => simp [hpages] at h
    | ok pages =>
      cases pages with
      | arr items =>
        simp only [hpages] at h
        obtain ⟨ps, hps⟩ := mapList_pageRecord_ok items h
        refine ⟨JsVal.obj [("mangaId", mangaId), ("chapterNumber", chapterNumber), ("pages", .arr ps)],
          MangaAPI.mk api.mangaData api.currentManga
            (JsVal.obj [("mangaId", mangaId), ("chapterNumber", chapterNumber), ("pages", .arr ps)]), ?_⟩
        simp [fetchChapterPagesTry, awaitJson, hpages, bind, Except.bind, callMap, hps]
      | _ => simp [hpages] at h

/-- C3: all remote-call failures are caught and replaced with hardcoded
fallback data.  For every string argument and every outcome of the remote
call, none of `fetchMangaList`, `fetchMangaDetails`, `fetchChapterPages` and
`searchManga` throws, and whenever the call or the decoding of its result
fails they return `getFallbackMangaList()`, `getFallbackMangaData(mangaId)`,
`getFallbackChapterData(mangaId, chapterNumber)` and
`searchFallbackManga(query)` respectively. -/
theorem remote_failures_are_caught (lower : String → String) (api : MangaAPI)
    (mangaId query : String) (chapterNumber : JsVal) (outcome : FetchOutcome) :
    ((∃ v, (fetchMangaList api outcome).1 = .ok v) ∧
      (∃ v, (fetchMangaDetails api (.str mangaId) outcome).1 = .ok v) ∧
      (∃ v, (fetchChapterPages api (.str mangaId) chapterNumber outcome).1 = .ok v) ∧
      (∃ v, (searchManga lower api (.str query) outcome).1 = .ok v)) ∧
    (mangaListFails outcome = true →
      (fetchMangaList api outcome).1 = .ok getFallbackMangaList) ∧
    (recordFails outcome = true →
      (fetchMangaDetails api (.str mangaId) outcome).1 = getFallbackMangaData (.str mangaId)) ∧
    (chapterPagesFails outcome = true →
      (fetchChapterPages api (.str mangaId) chapterNumber outcome).1
        = .ok (getFallbackChapterData (.str mangaId) chapterNumber)) ∧
    (recordFails outcome = true →
      (searchManga lower api (.str query) outcome).1 = searchFallbackManga lower (.str query)) := by
  refine ⟨⟨?_, ?_, ?_, ?_⟩, ?_, ?_, ?_, ?_⟩
  · exact tryCatch_ok _ _ (fun _ => ⟨_, rfl⟩)
  · exact tryCatch_ok _ _ (fun _ => getFallbackMangaData_ok _)
  · exact tryCatch_ok _ _ (fun _ => ⟨_, rfl⟩)
  · exact tryCatch_ok _ _ (fun _ => searchFallbackManga_ok lower query)
  · intro h
    obtain ⟨e, api', he⟩ := fetchMangaListTry_error api outcome h
    simp [fetchMangaList, he, tryCatch]
  · intro h
    obtain ⟨e, he⟩ := fetchMangaDetailsTry_error api outcome h
    simp [fetchMangaDetails, he, tryCatch]
  · intro h
    obtain ⟨e, he⟩ := fetchChapterPagesTry_error api (.str mangaId) chapterNumber outcome h
    simp [fetchChapterPages, he, tryCatch]
  · intro h
    obtain ⟨e, he⟩ := searchMangaTry_error api outcome h
    simp [searchManga, he, tryCatch]

/-- Witness of C3: the server answers `[null]` to the list call and `null` to the others. -/
theorem remote_failures_are_caught_witness :
    (mangaListFails (.json (.arr [.null])) = true ∧
      (fetchMangaList MangaAPI.initial (.json (.arr [.null]))).1 = .ok getFallbackMangaList) ∧
    (recordFails (.json .null) = true ∧
      (fetchMangaDetails MangaAPI.initial (.str "one-piece") (.json .null)).1
        = getFallbackMangaData (.str "one-piece")) :=
  ⟨⟨rfl, (remote_failures_are_caught id MangaAPI.initial "one-piece" "one" (.num 1)
      (.json (.arr [.null]))).2.1 rfl⟩,
    ⟨rfl, (remote_failures_are_caught id MangaAPI.initial "one-piece" "one" (.num 1)
      (.json .null)).2.2.1 rfl⟩⟩

/-! ## Properties of the service worker -/

/-- The substring test is the infix relation on the characters. -/
theorem charsInclude_iff (s t : List Char) : charsInclude s t = true ↔ t <:+: s := by
  induction s with
  | nil => cases t <;> simp [charsInclude]
  | cons c s ih =>
    simp only [charsInclude, Bool.or_eq_true, ih, List.infix_cons_iff, List.isPrefixOf_iff_prefix]

/-- C4: the `fetch` listener routes every request by method and origin.  A
request whose method is not GET is not answered; a GET request to the
worker's own origin is answered with `cacheFirst`, whatever its hostname;
otherwise a GET request whose hostname contains `kimi-web-img.moonshot.cn` or
`rosybrown-mouse-406916.hostingersite.com` is answered with `networkFirst`;
every other GET request is answered with `cacheFirst`. -/
theorem fetch_listener_routing (loc : String) (net : Network) (st : SwState) (request : Request) :
    (request.method ≠ "GET" →
      fetchRoute loc request = none ∧ onFetch loc net st request = none) ∧
    (request.method = "GET" → request.origin = loc →
      fetchRoute loc request = some .cacheFirst ∧
        onFetch loc net st request = some (cacheFirst loc net st request)) ∧
    (request.method = "GET" → request.origin ≠ loc →
      (includes request.hostname "kimi-web-img.moonshot.cn" = true ∨
        includes request.hostname "rosybrown-mouse-406916.hostingersite.com" = true) →
      fetchRoute loc request = some .networkFirst ∧
        onFetch loc net st request = some (networkFirst net st request)) ∧
    (request.method = "GET" → request.origin ≠ loc →
      includes request.hostname "kimi-web-img.moonshot.cn" = false →
      includes request.hostname "rosybrown-mouse-406916.hostingersite.com" = false →
      fetchRoute loc request = some .cacheFirst ∧
        onFetch loc net st request = some (cacheFirst loc net st request)) := by
  refine ⟨?_, ?_, ?_, ?_⟩
  · intro hm
    have hr : fetchRoute loc request = none := by simp [fetchRoute, hm]
    exact ⟨hr, by simp [onFetch, hr]⟩
  · intro hm ho
    have hr : fetchRoute loc request = some .cacheFirst := by simp [fetchRoute, hm, ho]
    exact ⟨hr, by simp [onFetch, hr]⟩
  · intro hm ho hh
    have hr : fetchRoute loc request = some .networkFirst := by
      rcases hh with hh | hh
      · simp [fetchRoute, hm, ho, hh]
      · by_cases hk : includes request.hostname "kimi-web-img.moonshot.cn" = true <;>
          simp [fetchRoute, hm, ho, hh, hk]
    exact ⟨hr, by simp [onFetch, hr]⟩
  · intro hm ho h1 h2
    have hr : fetchRoute loc request = some .cacheFirst := by simp [fetchRoute, hm, ho, h1, h2]
    exact ⟨hr, by simp [onFetch, hr]⟩

/-- Witness of C4: a same-origin GET request whose hostname contains
`kimi-web-img.moonshot.cn` is answered with `cacheFirst`. -/
theorem fetch_listener_routing_witness :
    includes "kimi-web-img.moonshot.cn" "kimi-web-img.moonshot.cn" = true ∧
      fetchRoute "https://kimi-web-img.moonshot.cn"
        { url := "https://kimi-web-img.moonshot.cn/img/a.jpg", method := "GET",
          origin := "https://kimi-web-img.moonshot.cn", hostname := "kimi-web-img.moonshot.cn",
          destination := "image" } = some .cacheFirst :=
  ⟨by decide,
    ((fetch_listener_routing "https://kimi-web-img.moonshot.cn" offlineNetwork ⟨[], []⟩
      { url := "https://kimi-web-img.moonshot.cn/img/a.jpg", method := "GET",
        origin := "https://kimi-web-img.moonshot.cn", hostname := "kimi-web-img.moonshot.cn",
        destination := "image" }).2.1 rfl rfl).1⟩

/-- C5 as stated fails: a script request that is not cached, on a network
that is down, gets no response at all from `cacheFirst`. -/
theorem cacheFirst_offline_script_counterexample :
    cachesMatch sampleCaches scriptRequest.url = none ∧
      offlineNetwork 0 scriptRequest = none ∧
      (cacheFirst sampleOrigin offlineNetwork ⟨sampleCaches, []⟩ scriptRequest).1 = .ok none := by
  exact ⟨rfl, rfl, rfl⟩

/-- C5, amended: when the cache lookup finds no match and the network fetch
fails, `cacheFirst` returns the cached response for `/index.html` (none when
it is not cached) for a request whose destination is `document`, the static
SVG placeholder for a request whose destination is `image`, and no response
for every other destination. -/
theorem cacheFirst_offline_fallback (loc : String) (net : Network) (st : SwState)
    (request : Request) (hmiss : cachesMatch st.caches request.url = none)
    (hfail : net st.fetches.length request = none) :
    (cacheFirst loc net st request).1 =
      (if request.destination = "document" then .ok (cachesMatch st.caches (loc ++ "/index.html"))
      else if request.destination = "image" then .ok (some offlineImage)
      else .ok none) ∧
    offlineImage.headers = [("Content-Type", "image/svg+xml")] := by
  refine ⟨?_, rfl⟩
  simp only [cacheFirst, cacheFirstTry, hmiss, doFetch, hfail, tryCatch]
  split_ifs <;> rfl

/-- Witness of the amended C5: an image request that is not cached, on a network that is down. -/
theorem cacheFirst_offline_fallback_witness :
    cachesMatch sampleCaches "https://cdn.example.net/cover.png" = none ∧
      (cacheFirst sampleOrigin offlineNetwork ⟨sampleCaches, []⟩
        { url := "https://cdn.example.net/cover.png", method := "GET",
          origin := "https://cdn.example.net", hostname := "cdn.example.net",
          destination := "image" }).1 = .ok (some offlineImage) :=
  ⟨rfl,
    (cacheFirst_offline_fallback sampleOrigin offlineNetwork ⟨sampleCaches, []⟩
      { url := "https://cdn.example.net/cover.png", method := "GET",
        origin := "https://cdn.example.net", hostname := "cdn.example.net",
        destination := "image" } rfl rfl).1⟩

/-- C6: when the network fetch fails, `networkFirst` returns the cached
response for the request if the caches hold one, and otherwise a response
with status 503, `Content-Type: application/json` and a JSON body whose field
`offline` is `true`.  In every case `networkFirst` returns a response (it
neither throws nor returns `undefined`) and makes exactly one fetch attempt. -/
theorem networkFirst_single_attempt_fallback (net : Network) (st : SwState) (request : Request) :
    (∃ r, (networkFirst net st request).1 = .ok (some r)) ∧
    (networkFirst net st request).2.fetches = st.fetches ++ [request] ∧
    (net st.fetches.length request = none →
      (networkFirst net st request).1 =
        .ok (some (match cachesMatch st.caches request.url with
          | some cachedResponse => cachedResponse
          | none => offlineJson))) ∧
    offlineJson.status = 503 ∧
    offlineJson.headers = [("Content-Type", "application/json")] ∧
    ∃ doc, offlineJson.body = .json doc ∧ getProp doc "offline" = .ok (.bool true) := by
  refine ⟨?_, ?_, ?_, rfl, rfl, _, rfl, rfl⟩
  · cases hn : net st.fetches.length request with
    | some r => exact ⟨r, by simp [networkFirst, networkFirstTry, doFetch, hn, tryCatch]⟩
    | none =>
      cases hc : cachesMatch st.caches request.url with
      | some c => exact ⟨c, by simp [networkFirst, networkFirstTry, doFetch, hn, tryCatch, hc]⟩
      | none => exact ⟨offlineJson, by simp [networkFirst, networkFirstTry, doFetch, hn, tryCatch, hc]⟩
  · cases hn : net st.fetches.length request with
    | some r =>
      simp only [networkFirst, networkFirstTry, doFetch, hn, tryCatch, cacheIfOk]
      split_ifs <;> rfl
    | none =>
      cases hc : cachesMatch st.caches request.url <;>
        simp [networkFirst, networkFirstTry, doFetch, hn, tryCatch, hc]
  · intro hn
    cases hc : cachesMatch st.caches request.url <;>
      simp [networkFirst, networkFirstTry, doFetch, hn, tryCatch, hc]

/-- Witness of C6: the start page requested while the network is down comes from the cache. -/
theorem networkFirst_single_attempt_fallback_witness :
    offlineNetwork 0 { scriptRequest with url := sampleOrigin ++ "/index.html" } = none ∧
      (networkFirst offlineNetwork ⟨sampleCaches, []⟩
        { scriptRequest with url := sampleOrigin ++ "/index.html" }).1
        = .ok (some sampleIndexResponse) :=
  ⟨rfl, (networkFirst_single_attempt_fallback offlineNetwork ⟨sampleCaches, []⟩
    { scriptRequest with url := sampleOrigin ++ "/index.html" }).2.2.1 rfl⟩

/-- C7: cache first.  When the caches hold a match for the request,
`cacheFirst` returns that cached response, makes no network fetch and leaves
every cache unchanged: the worker's state is the same after the call. -/
theorem cacheFirst_hit (loc : String) (net : Network) (st : SwState) (request : Request)
    (cachedResponse : Response) (h : cachesMatch st.caches request.url = some cachedResponse) :
    (cacheFirst loc net st request).1 = .ok (some cachedResponse) ∧
      (cacheFirst loc net st request).2 = st ∧
      (cacheFirst loc net st request).2.fetches = st.fetches ∧
      (cacheFirst loc net st request).2.caches = st.caches := by
  simp [cacheFirst, cacheFirstTry, h, tryCatch]

/-- Witness of C7: the cached start page is served without a fetch. -/
theorem cacheFirst_hit_witness :
    cachesMatch sampleCaches (sampleOrigin ++ "/index.html") = some sampleIndexResponse ∧
      (cacheFirst sampleOrigin offlineNetwork ⟨sampleCaches, []⟩
        { scriptRequest with url := sampleOrigin ++ "/index.html" }).2.fetches = [] :=
  ⟨rfl, (cacheFirst_hit sampleOrigin offlineNetwork ⟨sampleCaches, []⟩
    { scriptRequest with url := sampleOrigin ++ "/index.html" } sampleIndexResponse rfl).2.2.1⟩

/-- A lookup in two lists of entries put one after the other. -/
theorem cacheMatch_append (a b : Cache) (url : String) :
    cacheMatch (a ++ b) url = (match cacheMatch a url with
      | some r => some r
      | none => cacheMatch b url) := by
  induction a with
  | nil => rfl
  | cons e rest ih =>
    obtain ⟨k, r⟩ := e
    by_cases hk : k = url <;> simp [cacheMatch, hk, ih]

/-- After the entries under `url` are removed, a lookup of `url` finds nothing. -/
theorem cacheMatch_filter_ne (c : Cache) (url : String) :
    cacheMatch (c.filter (fun entry => entry.1 != url)) url = none := by
  induction c with
  | nil => rfl
  | cons e rest ih =>
    obtain ⟨k, r⟩ := e
    by_cases hk : k = url <;> simp [List.filter_cons, cacheMatch, hk, ih]

/-- A lookup right after a `put` finds the response that was put. -/
theorem cacheMatch_cachePut (c : Cache) (url : String) (r : Response) :
    cacheMatch (cachePut c url r) url = some r := by
  simp [cachePut, cacheMatch_append, cacheMatch_filter_ne, cacheMatch]

/-- A `put` in the cache `name` changes that cache only. -/
theorem cacheNamed_putIn (caches : CacheStorage) (name other url : String) (r : Response) :
    cacheNamed (putIn caches name url r) other =
      (match cacheNamed caches other with
      | none => none
      | some c => if other = name then some (cachePut c url r) else some c) := by
  induction caches with
  | nil => rfl
  | cons e rest ih =>
    obtain ⟨n, c⟩ := e
    have hstep : putIn ((n, c) :: rest) name url r =
        (if n = name then (n, cachePut c url r) else (n, c)) :: putIn rest name url r := rfl
    rw [hstep]
    by_cases hx : n = name
    · rw [if_pos hx]
      by_cases hn : n = other
      · have ho : other = name := hn ▸ hx
        simp [cacheNamed, hn, ho]
      · simp only [cacheNamed, if_neg hn]
        exact ih
    · rw [if_neg hx]
      by_cases hn : n = other
      · have ho : ¬ other = name := hn ▸ hx
        simp [cacheNamed, hn, ho]
      · simp only [cacheNamed, if_neg hn]
        exact ih

/-- A lookup by name in caches put one after the other. -/
theorem cacheNamed_append (a b : CacheStorage) (name : String) :
    cacheNamed (a ++ b) name = (match cacheNamed a name with
      | some c => some c
      | none => cacheNamed b name) := by
  induction a with
  | nil => rfl
  | cons e rest ih =>
    obtain ⟨n, c⟩ := e
    by_cases hn : n = name <;> simp [cacheNamed, hn, ih]

/-- A cache whose name is among the keys is found by name. -/
theorem cacheNamed_isSome_of_mem (caches : CacheStorage) (name : String)
    (h : name ∈ cachesKeys caches) : ∃ c, cacheNamed caches name = some c := by
  induction caches with
  | nil => simp [cachesKeys] at h
  | cons e rest ih =>
    obtain ⟨n, c⟩ := e
    by_cases hn : n = name
    · exact ⟨c, by simp [cacheNamed, hn]⟩
    · have : name ∈ cachesKeys rest := by
        simp only [cachesKeys, List.map_cons, List.mem_cons] at h
        rcases h with h | h
        · exact absurd h.symm hn
        · exact h
      obtain ⟨c', hc'⟩ := ih this
      exact ⟨c', by simp [cacheNamed, hn, hc']⟩

/-- A cache whose name is not among the keys is not found. -/
theorem cacheNamed_eq_none_of_not_mem (caches : CacheStorage) (name : String)
    (h : name ∉ cachesKeys caches) : cacheNamed caches name = none := by
  induction caches with
  | nil => rfl
  | cons e rest ih =>
    obtain ⟨n, c⟩ := e
    simp only [cachesKeys, List.map_cons, List.mem_cons, not_or] at h
    have hn : ¬ n = name := fun hh => h.1 hh.symm
    simp only [cacheNamed, if_neg hn]
    exact ih h.2

/-- After `caches.open(name)` the cache `name` exists. -/
theorem cacheNamed_cachesOpen_self (caches : CacheStorage) (name : String) :
    ∃ c, cacheNamed (cachesOpen caches name) name = some c := by
  by_cases h : name ∈ cachesKeys caches
  · obtain ⟨c, hc⟩ := cacheNamed_isSome_of_mem caches name h
    exact ⟨c, by simp [cachesOpen, h, hc]⟩
  · refine ⟨[], ?_⟩
    simp [cachesOpen, h, cacheNamed_append, cacheNamed_eq_none_of_not_mem caches name h, cacheNamed]

/-- The call `caches.open(name)` leaves every other cache as it was. -/
theorem cacheNamed_cachesOpen_other (caches : CacheStorage) (name other : String)
    (h : other ≠ name) : cacheNamed (cachesOpen caches name) other = cacheNamed caches other := by
  by_cases hm : name ∈ cachesKeys caches
  · simp [cachesOpen, hm]
  · have hne : ¬ name = other := fun hh => h hh.symm
    cases hc : cacheNamed caches other <;>
      simp [cachesOpen, hm, cacheNamed_append, cacheNamed, hne, hc]

/-- What the shared caching step does to the caches. -/
theorem cacheIfOk_spec (st : SwState) (request : Request) (r : Response) :
    (r.status = 200 → dynamicEntry (cacheIfOk st request r).caches request.url = some r) ∧
    (r.status ≠ 200 → cacheIfOk st request r = st) ∧
    cacheNamed (cacheIfOk st request r).caches STATIC_CACHE = cacheNamed st.caches STATIC_CACHE ∧
    (cacheIfOk st request r).fetches = st.fetches := by
  have hne : STATIC_CACHE ≠ DYNAMIC_CACHE := by decide
  by_cases hs : r.status = 200
  · refine ⟨fun _ => ?_, fun h => absurd hs h, ?_, ?_⟩
    · obtain ⟨c, hc⟩ := cacheNamed_cachesOpen_self st.caches DYNAMIC_CACHE
      simp [dynamicEntry, cacheIfOk, hs, cacheNamed_putIn, hc, cacheMatch_cachePut]
    · simp only [cacheIfOk, hs, if_true, cacheNamed_putIn, if_neg hne,
        cacheNamed_cachesOpen_other st.caches DYNAMIC_CACHE STATIC_CACHE hne]
      cases cacheNamed st.caches STATIC_CACHE <;> rfl
    · simp [cacheIfOk, hs]
  · exact ⟨fun h => absurd h hs, fun _ => by simp [cacheIfOk, hs], by simp [cacheIfOk, hs],
      by simp [cacheIfOk, hs]⟩

/-- C8: only successful responses are cached.  In `networkFirst`, and in
`cacheFirst` on a cache miss, when the network fetch completes with a
response `r`, the value returned is `r`; when `r.status` is 200 the entry
`request -> r` is put in the dynamic cache `biderja-dynamic-v1`, and when it is
not 200 no cache is changed; the static cache `biderja-static-v1` is left as
it was in both cases. -/
theorem only_ok_responses_are_cached (loc : String) (net : Network) (st : SwState)
    (request : Request) (r : Response) (hnet : net st.fetches.length request = some r) :
    ((networkFirst net st request).1 = .ok (some r) ∧
      (r.status = 200 →
        (networkFirst net st request).2.caches
            = putIn (cachesOpen st.caches DYNAMIC_CACHE) DYNAMIC_CACHE request.url r ∧
          dynamicEntry (networkFirst net st request).2.caches request.url = some r) ∧
      (r.status ≠ 200 → (networkFirst net st request).2.caches = st.caches) ∧
      cacheNamed (networkFirst net st request).2.caches STATIC_CACHE
        = cacheNamed st.caches STATIC_CACHE) ∧
    (cachesMatch st.caches request.url = none →
      (cacheFirst loc net st request).1 = .ok (some r) ∧
      (r.status = 200 →
        (cacheFirst loc net st request).2.caches
            = putIn (cachesOpen st.caches DYNAMIC_CACHE) DYNAMIC_CACHE request.url r ∧
          dynamicEntry (cacheFirst loc net st request).2.caches request.url = some r) ∧
      (r.status ≠ 200 → (cacheFirst loc net st request).2.caches = st.caches) ∧
      cacheNamed (cacheFirst loc net st request).2.caches STATIC_CACHE
        = cacheNamed st.caches STATIC_CACHE) := by
  have hspec := cacheIfOk_spec { st with fetches := st.fetches ++ [request] } request r
  have hn : networkFirst net st request
      = (.ok (some r), cacheIfOk { st with fetches := st.fetches ++ [request] } request r) := by
    simp [networkFirst, networkFirstTry, doFetch, hnet, tryCatch]
  refine ⟨?_, ?_⟩
  · rw [hn]
    refine ⟨rfl, fun hs => ⟨by simp [cacheIfOk, hs], hspec.1 hs⟩, fun hs => ?_, hspec.2.2.1⟩
    simp [hspec.2.1 hs]
  · intro hmiss
    have hc : cacheFirst loc net st request
        = (.ok (some r), cacheIfOk { st with fetches := st.fetches ++ [request] } request r) := by
      simp [cacheFirst, cacheFirstTry, hmiss, doFetch, hnet, tryCatch]
    rw [hc]
    refine ⟨rfl, fun hs => ⟨by simp [cacheIfOk, hs], hspec.1 hs⟩, fun hs => ?_, hspec.2.2.1⟩
    simp [hspec.2.1 hs]

/-- Witness of C8: a 404 answer to an uncached script is returned and not cached. -/
theorem only_ok_responses_are_cached_witness :
    (fun (_ : Nat) (_ : Request) => some (Response.mk 404 [] (.raw "not found"))) 0 scriptRequest
        = some (Response.mk 404 [] (.raw "not found")) ∧
      (networkFirst (fun _ _ => some (Response.mk 404 [] (.raw "not found")))
        ⟨sampleCaches, []⟩ scriptRequest).2.caches = sampleCaches :=
  ⟨rfl, (only_ok_responses_are_cached sampleOrigin
    (fun _ _ => some (Response.mk 404 [] (.raw "not found"))) ⟨sampleCaches, []⟩ scriptRequest
    (Response.mk 404 [] (.raw "not found")) rfl).1.2.2.1 (by decide)⟩

/-- Deleting the listed names that are not current keeps exactly the entries
whose name is current or not listed. -/
theorem foldl_delete_eq_filter (names : List String) :
    ∀ acc : CacheStorage,
      names.foldl (fun acc cacheName =>
        if cacheName != STATIC_CACHE && cacheName != DYNAMIC_CACHE then cachesDelete acc cacheName
        else acc) acc
      = acc.filter (fun entry =>
          !(decide (entry.1 ∈ names) && (entry.1 != STATIC_CACHE && entry.1 != DYNAMIC_CACHE))) := by
  induction names with
  | nil => intro acc; simp
  | cons n rest ih =>
    intro acc
    rw [List.foldl_cons, ih]
    by_cases hb : (n != STATIC_CACHE && n != DYNAMIC_CACHE) = true
    · rw [if_pos hb, cachesDelete, List.filter_filter]
      apply List.filter_congr
      intro e _
      by_cases he : e.1 = n
      · simp [he, hb]
      · simp [he]
    · rw [if_neg hb]
      apply List.filter_congr
      intro e _
      by_cases he : e.1 = n
      · have hb' : (n != STATIC_CACHE && n != DYNAMIC_CACHE) = false := by simpa using hb
        simp [he, hb']
      · simp [he]

/-- C9: activation cleans up old caches.  After the `activate` listener the
caches are exactly those of before whose name is `biderja-static-v1` or
`biderja-dynamic-v1`, with their contents: every other cache is deleted and
neither of these two is. -/
theorem activate_keeps_exactly_current_caches (caches : CacheStorage) :
    onActivate caches
        = caches.filter (fun entry => entry.1 == STATIC_CACHE || entry.1 == DYNAMIC_CACHE) ∧
      ∀ name, name ∈ cachesKeys (onActivate caches) ↔
        name ∈ cachesKeys caches ∧ (name = STATIC_CACHE ∨ name = DYNAMIC_CACHE) := by
  have h : onActivate caches
      = caches.filter (fun entry => entry.1 == STATIC_CACHE || entry.1 == DYNAMIC_CACHE) := by
    rw [onActivate, foldl_delete_eq_filter]
    apply List.filter_congr
    intro e he
    have hmem : e.1 ∈ cachesKeys caches := List.mem_map_of_mem Prod.fst he
    by_cases h1 : e.1 = STATIC_CACHE <;> by_cases h2 : e.1 = DYNAMIC_CACHE <;>
      simp [hmem, h1, h2, bne]
  refine ⟨h, fun name => ?_⟩
  rw [h]
  simp only [cachesKeys, List.mem_map, List.mem_filter, Bool.or_eq_true, beq_iff_eq]
  constructor
  · rintro ⟨e, ⟨he, hk⟩, rfl⟩
    exact ⟨⟨e, he, rfl⟩, hk⟩
  · rintro ⟨⟨e, he, rfl⟩, hk⟩
    exact ⟨e, ⟨he, hk⟩, rfl⟩

/-! ## Properties of the reading progress in `localStorage` -/

/-- Reading the key that was just set gives the value that was set. -/
theorem getItem_setItem_same (st : Storage) (key : String) (value : Text) :
    getItem (setItem st key value) key = some value := by
  induction st with
  | nil => simp [setItem, getItem]
  | cons e rest ih =>
    obtain ⟨k, v⟩ := e
    by_cases hk : k = key <;> simp [setItem, getItem, hk, ih]

/-- Setting a key leaves every other key as it was. -/
theorem getItem_setItem_other (st : Storage) (key other : String) (value : Text)
    (h : other ≠ key) : getItem (setItem st key value) other = getItem st other := by
  induction st with
  | nil =>
    have hne : ¬ key = other := fun hh => h hh.symm
    simp [setItem, getItem, hne]
  | cons e rest ih =>
    obtain ⟨k, v⟩ := e
    by_cases hk : k = key
    · have hne : ¬ k = other := fun hh => h (hh ▸ hk)
      simp [setItem, getItem, hk, hne, hk ▸ hne]
    · by_cases ho : k = other
      · subst ho
        simp [setItem, getItem, hk]
      · simp [setItem, getItem, hk, ho, ih]

/-- Distinct manga ids have distinct progress keys. -/
theorem progress_key_injective (a b : String) (h : "progress_" ++ a = "progress_" ++ b) : a = b := by
  have hd := congrArg String.data h
  rw [String.data_append, String.data_append] at hd
  exact String.ext (List.append_cancel_left hd)

/-- No progress key is the bookmarks key. -/
theorem progress_key_ne_bookmarks (a : String) : "bookmarks" ≠ "progress_" ++ a := by
  intro h
  have hd := congrArg String.data h
  rw [String.data_append] at hd
  have hp : "progress_".data = ['p', 'r', 'o', 'g', 'r', 'e', 's', 's', '_'] := rfl
  have hb : "bookmarks".data = ['b', 'o', 'o', 'k', 'm', 'a', 'r', 'k', 's'] := rfl
  rw [hp, hb] at hd
  simp at hd

/-! ## Properties of the bookmarks in `localStorage` -/

mutual
/-- A JSON document is written by `JSON.stringify` as it is. -/
theorem stringifyVal_of_isJson : ∀ v : JsVal, isJsonVal v = true → stringifyVal v = v
  | .undefined, h => by simp [isJsonVal] at h
  | .null, _ => rfl
  | .bool _, _ => rfl
  | .num _, _ => rfl
  | .nan, h => by simp [isJsonVal] at h
  | .infinity _, h => by simp [isJsonVal] at h
  | .str _, _ => rfl
  | .arr items, h => by
    have hi : isJsonItems items = true := by simpa [isJsonVal] using h
    simp [stringifyVal, stringifyItems_of_isJson items hi]
  | .obj fields, h => by
    have hf : isJsonFields fields = true := by simpa [isJsonVal] using h
    simp [stringifyVal, stringifyFields_of_isJson fields hf]
/-- A list of JSON documents is written as it is. -/
theorem stringifyItems_of_isJson : ∀ items : List JsVal, isJsonItems items = true →
    stringifyItems items = items
  | [], _ => rfl
  | x :: rest, h => by
    have hx : isJsonVal x = true ∧ isJsonItems rest = true := by simpa [isJsonItems] using h
    simp [stringifyItems, stringifyVal_of_isJson x hx.1, stringifyItems_of_isJson rest hx.2]
/-- Members holding JSON documents are written as they are. -/
theorem stringifyFields_of_isJson : ∀ fields : List (String × JsVal), isJsonFields fields = true →
    stringifyFields fields = fields
  | [], _ => rfl
  | (k, v) :: rest, h => by
    have hx : isJsonVal v = true ∧ isJsonFields rest = true := by simpa [isJsonFields] using h
    have hv := stringifyVal_of_isJson v hx.1
    have hr := stringifyFields_of_isJson rest hx.2
    cases v with
    | undefined => simp [isJsonVal] at hx
    | _ => simp [stringifyFields, hv, hr]
end

/-- A list of JSON documents with one more JSON document at its end. -/
theorem isJsonItems_append (xs : List JsVal) (y : JsVal) (hx : isJsonItems xs = true)
    (hy : isJsonVal y = true) : isJsonItems (xs ++ [y]) = true := by
  induction xs with
  | nil => simp [isJsonItems, hy]
  | cons x rest ih =>
    have h : isJsonVal x = true ∧ isJsonItems rest = true := by simpa [isJsonItems] using hx
    simp [isJsonItems, h.1, ih h.2]

/-- A `filter` that keeps every element but the last returns the list without its last element. -/
theorem filterList_append_last (p : JsVal → Except JsError Bool) (xs : List JsVal) (y : JsVal)
    (hkeep : ∀ x ∈ xs, p x = .ok true) (hdrop : p y = .ok false) :
    filterList p (xs ++ [y]) = .ok xs := by
  induction xs with
  | nil => simp [filterList, hdrop]
  | cons x rest ih =>
    have hx := hkeep x (List.mem_cons_self x rest)
    have hr := ih (fun z hz => hkeep z (List.mem_cons_of_mem x hz))
    simp [filterList, hx, hr]

/-- Reading the bookmarks right after a JSON array was stored gives that array. -/
theorem getBookmarks_setItem (st : Storage) (items : List JsVal) (h : isJsonItems items = true) :
    getBookmarks (setItem st "bookmarks" (jsonStringify (.arr items))) = .ok (.arr items) := by
  simp [getBookmarks, getItem_setItem_same, jsonStringify, stringifyVal,
    stringifyItems_of_isJson items h, textTruthy, jsonParse]

/-- A member holding a JSON document is written by `JSON.stringify` as it is. -/
theorem stringifyFields_cons_json (k : String) (v : JsVal) (rest : List (String × JsVal))
    (h : isJsonVal v = true) :
    stringifyFields ((k, v) :: rest) = (k, v) :: stringifyFields rest := by
  have hv := stringifyVal_of_isJson v h
  cases v with
  | undefined => simp [isJsonVal] at h
  | _ => simp [stringifyFields, hv]

/-- A member holding `undefined` is left out by `JSON.stringify`. -/
theorem stringifyFields_cons_undefined (k : String) (rest : List (String × JsVal)) :
    stringifyFields ((k, .undefined) :: rest) = stringifyFields rest := by
  simp [stringifyFields]

/-- The record read back after a save, member by member. -/
theorem saved_progress_members (m now : String) (c p : JsVal)
    (hc : isJsonVal c = true ∨ c = .undefined) (hp : isJsonVal p = true ∨ p = .undefined) :
    lookupField "mangaId" (stringifyFields [("mangaId", .str m), ("chapterNumber", c),
        ("pageNumber", p), ("timestamp", .str now)]) = .str m ∧
      lookupField "chapterNumber" (stringifyFields [("mangaId", .str m), ("chapterNumber", c),
        ("pageNumber", p), ("timestamp", .str now)]) = c ∧
      lookupField "pageNumber" (stringifyFields [("mangaId", .str m), ("chapterNumber", c),
        ("pageNumber", p), ("timestamp", .str now)]) = p := by
  have hm : isJsonVal (.str m) = true := rfl
  have hn : isJsonVal (.str now) = true := rfl
  rcases hc with hc | hc <;> rcases hp with hp | hp
  · simp [stringifyFields_cons_json, hm, hn, hc, hp, stringifyFields, stringifyVal, lookupField]
  · subst hp
    simp [stringifyFields_cons_json, stringifyFields_cons_undefined, hm, hn, hc, stringifyFields,
      stringifyVal, lookupField]
  · subst hc
    simp [stringifyFields_cons_json, stringifyFields_cons_undefined, hm, hn, hp, stringifyFields,
      stringifyVal, lookupField]
  · subst hc; subst hp
    simp [stringifyFields_cons_json, stringifyFields_cons_undefined, hm, hn, stringifyFields,
      stringifyVal, lookupField]

/-- C10 as stated fails: a chapter number `NaN` is stored as `null` and read
back as `null`; and a save for the manga id `"1"` replaces the progress stored
for the other manga id `1`, which has the same key `progress_1`. -/
theorem reading_progress_round_trip_counterexample :
    saveThenRead [] (.str "one-piece") .nan (.num 3) "2024-01-01T00:00:00.000Z" (.str "one-piece")
        = .ok (.obj [
            ("mangaId", .str "one-piece"),
            ("chapterNumber", .null),
            ("pageNumber", .num 3),
            ("timestamp", .str "2024-01-01T00:00:00.000Z")]) ∧
      saveReadingProgress [] (.num 1) (.num 5) (.num 6) "2024-01-01T00:00:00.000Z"
        = .ok storageWithProgress ∧
      getReadingProgress storageWithProgress (.num 1) = .ok progressOfOne ∧
      saveThenRead storageWithProgress (.str "1") (.num 2) (.num 3) "2024-01-02T00:00:00.000Z"
          (.num 1)
        = .ok (.obj [
            ("mangaId", .str "1"),
            ("chapterNumber", .num 2),
            ("pageNumber", .num 3),
            ("timestamp", .str "2024-01-02T00:00:00.000Z")]) :=
  ⟨rfl, rfl, rfl, rfl⟩

/-- C10, amended: reading progress round-trips through storage under the key
`progress_{mangaId}` for a string manga id and JSON values.  For every storage
state, every string `m` and every chapter number `c` and page number `p` each
of which is `undefined` or a JSON value (`null`, a boolean, an integer, a
string, or an array or object of such values), `saveReadingProgress(m, c, p)`
completes and `getReadingProgress(m)` then returns a record whose `mangaId` is
`m`, `chapterNumber` is `c` and `pageNumber` is `p`, whatever was saved for `m`
before (the last save wins); the save leaves the stored progress of every
other string manga id and the stored bookmarks unchanged. -/
theorem reading_progress_round_trip (st : Storage) (m : String) (c p : JsVal) (now : String)
    (hc : isJsonVal c = true ∨ c = .undefined) (hp : isJsonVal p = true ∨ p = .undefined) :
    ∃ st1,
      saveReadingProgress st (.str m) c p now = .ok st1 ∧
      (∃ record,
        getReadingProgress st1 (.str m) = .ok record ∧
        saveThenRead st (.str m) c p now (.str m) = .ok record ∧
        getProp record "mangaId" = .ok (.str m) ∧
        getProp record "chapterNumber" = .ok c ∧
        getProp record "pageNumber" = .ok p) ∧
      (∀ (st0 : Storage) (c0 p0 : JsVal) (now0 : String),
        saveReadingProgress st0 (.str m) c0 p0 now0 = .ok st →
        getReadingProgress st1 (.str m) = saveThenRead st0 (.str m) c p now (.str m)) ∧
      (∀ other : String, other ≠ m →
        getItem st1 ("progress_" ++ other) = getItem st ("progress_" ++ other) ∧
          getReadingProgress st1 (.str other) = getReadingProgress st (.str other)) ∧
      getItem st1 "bookmarks" = getItem st "bookmarks" ∧
      getBookmarks st1 = getBookmarks st := by
  have hsave : ∀ st' : Storage, saveReadingProgress st' (.str m) c p now
      = .ok (setItem st' ("progress_" ++ m) (.json (.obj (stringifyFields [("mangaId", .str m),
          ("chapterNumber", c), ("pageNumber", p), ("timestamp", .str now)])))) := by
    intro st'
    simp [saveReadingProgress, progressKey, toStringVal, jsonStringify, stringifyVal]
  have hread : ∀ st' : Storage,
      getReadingProgress (setItem st' ("progress_" ++ m) (.json (.obj (stringifyFields
          [("mangaId", .str m), ("chapterNumber", c), ("pageNumber", p),
            ("timestamp", .str now)])))) (.str m)
        = .ok (.obj (stringifyFields [("mangaId", .str m), ("chapterNumber", c),
            ("pageNumber", p), ("timestamp", .str now)])) := by
    intro st'
    simp [getReadingProgress, progressKey, toStringVal, getItem_setItem_same, textTruthy, jsonParse]
  obtain ⟨h1, h2, h3⟩ := saved_progress_members m now c p hc hp
  refine ⟨_, hsave st, ⟨_, hread st, ?_, ?_, ?_, ?_⟩, ?_, ?_, ?_, ?_⟩
  · simp only [saveThenRead, hsave st, hread st]
  · simp only [getProp, h1]
  · simp only [getProp, h2]
  · simp only [getProp, h3]
  · intro st0 c0 p0 now0 h0
    simp only [saveThenRead, hsave st0, hread st0, hread st]
  · intro other ho
    have hk : "progress_" ++ other ≠ "progress_" ++ m :=
      fun hh => ho (progress_key_injective _ _ hh)
    have hi := getItem_setItem_other st ("progress_" ++ m) ("progress_" ++ other)
      (.json (.obj (stringifyFields [("mangaId", .str m), ("chapterNumber", c),
        ("pageNumber", p), ("timestamp", .str now)]))) hk
    exact ⟨hi, by simp only [getReadingProgress, progressKey, toStringVal, hi]⟩
  · exact getItem_setItem_other _ _ _ _ (progress_key_ne_bookmarks m)
  · have hi := getItem_setItem_other st ("progress_" ++ m) "bookmarks"
      (.json (.obj (stringifyFields [("mangaId", .str m), ("chapterNumber", c),
        ("pageNumber", p), ("timestamp", .str now)]))) (progress_key_ne_bookmarks m)
    simp only [getBookmarks, hi]

/-- Witness of the amended C10: a save for one manga, with a page number left
`undefined`, keeps the progress stored for another. -/
theorem reading_progress_round_trip_witness :
    (isJsonVal (.num 1) = true ∨ JsVal.num 1 = .undefined) ∧
      (isJsonVal .undefined = true ∨ JsVal.undefined = .undefined) ∧
      "1" ≠ "jujutsu-kaisen" ∧
      ∃ st1,
        saveReadingProgress storageWithProgress (.str "jujutsu-kaisen") (.num 1) .undefined
            "2024-01-02T00:00:00.000Z" = .ok st1 ∧
          getReadingProgress st1 (.str "1") = getReadingProgress storageWithProgress (.str "1") := by
  obtain ⟨st1, hs, _, _, hother, _, _⟩ := reading_progress_round_trip storageWithProgress
    "jujutsu-kaisen" (.num 1) .undefined "2024-01-02T00:00:00.000Z" (Or.inl rfl) (Or.inr rfl)
  exact ⟨Or.inl rfl, Or.inr rfl, by decide, st1, hs, (hother "1" (by decide)).2⟩

/-- C11 as stated fails in three ways.  When the stored list already holds a
bookmark added in the same millisecond, removing the new bookmark by its id
removes the older one too, and `getBookmarks()` returns the empty list.  When
the chapter number is `NaN`, the bookmark returned carries `NaN` but the one
stored and read back carries `null`.  When the stored list holds `null`,
`removeBookmark` throws a `TypeError` reading its `id`. -/
theorem bookmark_round_trip_counterexample :
    ((addBookmark [] (.str "one-piece") (.num 1) (.num 4) 1700000000000
          "2023-11-14T22:13:20.000Z").map Prod.snd = .ok storageWithBookmark ∧
        getBookmarks storageWithBookmark = .ok (.arr [firstBookmark]) ∧
        addThenRemove storageWithBookmark (.str "one-piece") (.num 2) (.num 9) 1700000000000
          "2023-11-14T22:13:20.000Z" = .ok (.arr [])) ∧
      ((addBookmark [] (.str "one-piece") .nan (.num 4) 1700000000000
            "2023-11-14T22:13:20.000Z").map Prod.fst
          = .ok (.obj [
              ("id", .num 1700000000000),
              ("mangaId", .str "one-piece"),
              ("chapterNumber", .nan),
              ("pageNumber", .num 4),
              ("timestamp", .str "2023-11-14T22:13:20.000Z")]) ∧
        (addBookmark [] (.str "one-piece") .nan (.num 4) 1700000000000
            "2023-11-14T22:13:20.000Z").bind (fun added => getBookmarks added.2)
          = .ok (.arr [.obj [
              ("id", .num 1700000000000),
              ("mangaId", .str "one-piece"),
              ("chapterNumber", .null),
              ("pageNumber", .num 4),
              ("timestamp", .str "2023-11-14T22:13:20.000Z")]])) ∧
      (getBookmarks [("bookmarks", .json (.arr [.null]))] = .ok (.arr [.null]) ∧
        addThenRemove [("bookmarks", .json (.arr [.null]))] (.str "one-piece") (.num 2) (.num 9)
          1700000000001 "2023-11-14T22:13:20.001Z" = .error .typeError) :=
  ⟨⟨rfl, rfl, rfl⟩, ⟨rfl, rfl⟩, ⟨rfl, rfl⟩⟩

/-- C11, amended: adding and then removing a bookmark is a round trip for
JSON values and a list without `null` and without the new id.  For every
stored bookmark list `L` (an array of JSON values) none of whose elements is
`null` or has the id `Date.now()` gives the new bookmark, and every manga id,
chapter number and page number that are JSON values (`null`, a boolean, an
integer, a string, or an array or object of such values), `addBookmark`
returns a bookmark `b` carrying those three fields, `getBookmarks()` then
returns `L` with `b` appended at the end, and after `removeBookmark(b.id)` it
returns `L` again. -/
theorem bookmark_round_trip (st : Storage) (L : List JsVal) (m c p : JsVal) (nowMs : Int)
    (now : String) (hL : getBookmarks st = .ok (.arr L)) (hjson : isJsonItems L = true)
    (hfresh : ∀ b ∈ L, isNullish b = false ∧ strictEq (recordId b) (.num nowMs) = false)
    (hm : isJsonVal m = true) (hc : isJsonVal c = true) (hp : isJsonVal p = true) :
    ∃ b st1,
      addBookmark st m c p nowMs now = .ok (b, st1) ∧
      getProp b "id" = .ok (.num nowMs) ∧
      getProp b "mangaId" = .ok m ∧
      getProp b "chapterNumber" = .ok c ∧
      getProp b "pageNumber" = .ok p ∧
      getBookmarks st1 = .ok (.arr (L ++ [b])) ∧
      addThenRemove st m c p nowMs now = .ok (.arr L) := by
  have hb : isJsonVal (.obj [("id", .num nowMs), ("mangaId", m), ("chapterNumber", c),
      ("pageNumber", p), ("timestamp", .str now)]) = true := by
    simp [isJsonVal, isJsonFields, hm, hc, hp]
  have hadd : addBookmark st m c p nowMs now
      = .ok (.obj [("id", .num nowMs), ("mangaId", m), ("chapterNumber", c),
          ("pageNumber", p), ("timestamp", .str now)],
        setItem st "bookmarks" (jsonStringify (.arr (L ++ [.obj [("id", .num nowMs),
          ("mangaId", m), ("chapterNumber", c), ("pageNumber", p),
          ("timestamp", .str now)]])))) := by
    simp [addBookmark, hL, arrayItems, bind, Except.bind, pure, Except.pure]
  have hget := getBookmarks_setItem st _ (isJsonItems_append L _ hjson hb)
  have hfilter : filterList (fun b => do
      let id ← getProp b "id"
      pure (!(strictEq id (.num nowMs))))
      (L ++ [.obj [("id", .num nowMs), ("mangaId", m), ("chapterNumber", c),
        ("pageNumber", p), ("timestamp", .str now)]]) = .ok L := by
    apply filterList_append_last
    · intro x hx
      obtain ⟨hnn, hne⟩ := hfresh x hx
      obtain ⟨id, hid⟩ := getProp_ok_of_not_nullish x "id" hnn
      have hrec : recordId x = id := by simp [recordId, hid]
      rw [hrec] at hne
      simp [hid, hne, bind, Except.bind, pure, Except.pure]
    · simp [getProp, lookupField, strictEq, bind, Except.bind, pure, Except.pure]
  refine ⟨_, _, hadd, rfl, rfl, rfl, rfl, hget, ?_⟩
  have hrem : removeBookmark (setItem st "bookmarks" (jsonStringify (.arr (L ++ [.obj [
      ("id", .num nowMs), ("mangaId", m), ("chapterNumber", c), ("pageNumber", p),
      ("timestamp", .str now)]])))) (.num nowMs)
      = .ok (setItem (setItem st "bookmarks" (jsonStringify (.arr (L ++ [.obj [
          ("id", .num nowMs), ("mangaId", m), ("chapterNumber", c),
          ("pageNumber", p), ("timestamp", .str now)]])))) "bookmarks"
          (jsonStringify (.arr L))) := by
    simp only [removeBookmark, hget, arrayItems, bind, Except.bind, pure, Except.pure]
    simp only [bind, Except.bind, pure, Except.pure] at hfilter
    rw [hfilter]
  simp only [addThenRemove, hadd, getProp, lookupField, if_true, hrem]
  exact getBookmarks_setItem _ L hjson

/-- Witness of the amended C11: a second bookmark added one millisecond after the first. -/
theorem bookmark_round_trip_witness :
    getBookmarks storageWithBookmark = .ok (.arr [firstBookmark]) ∧
      isJsonItems [firstBookmark] = true ∧
      isNullish firstBookmark = false ∧
      strictEq (recordId firstBookmark) (.num 1700000000001) = false ∧
      addThenRemove storageWithBookmark (.str "one-piece") (.num 2) (.num 9) 1700000000001
        "2023-11-14T22:13:20.001Z" = .ok (.arr [firstBookmark]) := by
  obtain ⟨_, _, _, _, _, _, _, _, h⟩ := bookmark_round_trip storageWithBookmark [firstBookmark]
    (.str "one-piece") (.num 2) (.num 9) 1700000000001 "2023-11-14T22:13:20.001Z" rfl rfl (by
      intro b hb
      rw [List.mem_singleton] at hb
      subst hb
      exact ⟨rfl, rfl⟩) rfl rfl rfl
  exact ⟨rfl, rfl, rfl, rfl, h⟩

/-! ## Properties of the manga list -/

/-- Two values that `===` accepts are the same value. -/
theorem strictEq_eq (a b : JsVal) (h : strictEq a b = true) : a = b := by
  cases a <;> cases b <;> simp_all [strictEq]

/-- Two keys that the map takes for the same key are the same value. -/
theorem sameValueZero_eq (a b : JsVal) (h : sameValueZero a b = true) : a = b := by
  cases a <;> cases b <;> simp_all [sameValueZero, strictEq]

/-- Two values that the map takes for different keys are different for `===`. -/
theorem strictEq_false_of_sameValueZero (a b : JsVal) (h : sameValueZero a b = false) :
    strictEq a b = false := by
  cases a <;> cases b <;> simp_all [sameValueZero, strictEq]

/-- An entry of the map after `set(k, v)` is an entry of before or the entry `(k, v)`. -/
theorem mem_mapSet (m : List (JsVal × JsVal)) (k v : JsVal) (e : JsVal × JsVal)
    (h : e ∈ mapSet m k v) : (∃ e' ∈ m, e'.1 = e.1 ∧ (e' = e ∨ e = (k, v))) ∨ e = (k, v) := by
  induction m with
  | nil =>
    simp only [mapSet, List.mem_singleton] at h
    exact Or.inr h
  | cons x rest ih =>
    obtain ⟨k', v'⟩ := x
    by_cases hk : sameValueZero k' k = true
    · simp only [mapSet, hk, if_true, List.mem_cons] at h
      rcases h with h | h
      · have hkk : k' = k := sameValueZero_eq k' k hk
        exact Or.inr (by rw [h, hkk])
      · exact Or.inl ⟨e, List.mem_cons_of_mem _ h, rfl, Or.inl rfl⟩
    · simp only [mapSet, hk, if_false, List.mem_cons, Bool.false_eq_true] at h
      rcases h with h | h
      · exact Or.inl ⟨(k', v'), List.mem_cons_self _ _, by rw [h], Or.inl h.symm⟩
      · rcases ih h with ⟨e', he', hkey, hor⟩ | heq
        · exact Or.inl ⟨e', List.mem_cons_of_mem _ he', hkey, hor⟩
        · exact Or.inr heq

/-- The call `set(k, v)` with a record `v` whose `id` is `k` keeps the invariant of the map. -/
theorem keyedById_mapSet (m : List (JsVal × JsVal)) (k v : JsVal) (hv : recordId v = k)
    (h : KeyedById m) : KeyedById (mapSet m k v) := by
  induction m with
  | nil =>
    refine ⟨by simp [mapSet], ?_⟩
    intro e he
    simp only [mapSet, List.mem_singleton] at he
    rw [he]
    exact hv
  | cons x rest ih =>
    obtain ⟨k', v'⟩ := x
    obtain ⟨hpair, hid⟩ := h
    rw [List.pairwise_cons] at hpair
    have hrest : KeyedById rest := ⟨hpair.2, fun e he => hid e (List.mem_cons_of_mem _ he)⟩
    by_cases hk : sameValueZero k' k = true
    · have hkk : k' = k := sameValueZero_eq k' k hk
      simp only [mapSet, hk, if_true]
      refine ⟨List.pairwise_cons.2 ⟨hpair.1, hpair.2⟩, ?_⟩
      intro e he
      rw [List.mem_cons] at he
      rcases he with he | he
      · rw [he]
        simpa [hkk] using hv
      · exact hid e (List.mem_cons_of_mem _ he)
    · have hkf : sameValueZero k' k = false := by simpa using hk
      simp only [mapSet, hk, if_false, Bool.false_eq_true]
      obtain ⟨ihp, ihid⟩ := ih hrest
      refine ⟨List.pairwise_cons.2 ⟨?_, ihp⟩, ?_⟩
      · intro b hb
        rcases mem_mapSet rest k v b hb with ⟨e', he', hkey, _⟩ | heq
        · rw [← hkey]
          exact hpair.1 e' he'
        · rw [heq]
          exact hkf
      · intro e he
        rw [List.mem_cons] at he
        rcases he with he | he
        · rw [he]
          exact hid (k', v') (List.mem_cons_self _ _)
        · exact ihid e he

/-- The record literal carries the `id` read from the element. -/
theorem recordId_mangaRecord (manga id record : JsVal) (hid : getProp manga "id" = .ok id)
    (hr : mangaRecord manga = .ok record) : recordId record = id := by
  cases manga <;>
    simp_all [mangaRecord, getProp, bind, Except.bind, pure, Except.pure, recordId, lookupField] <;>
    subst hr <;> simp [hid, lookupField]

/-- Storing one element keeps the invariant of the map. -/
theorem keyedById_storeManga (m m' : List (JsVal × JsVal)) (manga : JsVal)
    (hs : storeManga m manga = .ok m') (h : KeyedById m) : KeyedById m' := by
  cases hid : getProp manga "id" with
  | error e => simp [storeManga, hid, bind, Except.bind] at hs
  | ok id =>
    cases hr : mangaRecord manga with
    | error e => simp [storeManga, hid, hr, bind, Except.bind] at hs
    | ok record =>
      have hm : m' = mapSet m id record := by
        simp [storeManga, hid, hr, bind, Except.bind, pure, Except.pure] at hs
        exact hs.symm
      rw [hm]
      exact keyedById_mapSet m id record (recordId_mangaRecord manga id record hid hr) h

/-- The `forEach` of `fetchMangaList` keeps the invariant of the map, also when it throws. -/
theorem keyedById_forEachState (items : List JsVal) :
    ∀ m : List (JsVal × JsVal), KeyedById m → KeyedById (forEachState storeManga m items).1 := by
  induction items with
  | nil => intro m h; exact h
  | cons x rest ih =>
    intro m h
    cases hs : storeManga m x with
    | error e => simpa [forEachState, hs] using h
    | ok m1 =>
      have h1 := keyedById_storeManga m m1 x hs h
      simpa [forEachState, hs] using ih m1 h1

/-- The hardcoded fallback list has no two records with the same `id`. -/
theorem distinctIds_fallback : distinctIds getFallbackMangaList := by
  simp [distinctIds, getFallbackMangaList, recordId, getProp, lookupField, strictEq]

/-- The records of a map that satisfies the invariant have distinct ids. -/
theorem distinctIds_of_keyedById (m : List (JsVal × JsVal)) (h : KeyedById m) :
    distinctIds (.arr (m.map Prod.snd)) := by
  obtain ⟨hpair, hid⟩ := h
  simp only [distinctIds, List.pairwise_map]
  refine hpair.imp_of_mem ?_
  intro a b ha hb hab
  rw [hid a ha, hid b hb]
  exact strictEq_false_of_sameValueZero _ _ hab

/-- One call of `fetchMangaList` returns distinct ids and keeps the invariant of the map. -/
theorem fetchMangaList_distinct (api : MangaAPI) (outcome : FetchOutcome)
    (h : KeyedById api.mangaData) :
    (∃ v, (fetchMangaList api outcome).1 = .ok v ∧ distinctIds v) ∧
      KeyedById (fetchMangaList api outcome).2.mangaData := by
  cases outcome with
  | networkError => exact ⟨⟨_, rfl, distinctIds_fallback⟩, h⟩
  | notJson => exact ⟨⟨_, rfl, distinctIds_fallback⟩, h⟩
  | json data =>
    cases data with
    | arr items =>
      have hk := keyedById_forEachState items api.mangaData h
      cases hf : forEachState storeManga api.mangaData items with
      | mk stored err =>
        rw [hf] at hk
        cases err with
        | none =>
          refine ⟨⟨.arr (stored.map Prod.snd), ?_, distinctIds_of_keyedById stored hk⟩, ?_⟩
          · simp [fetchMangaList, fetchMangaListTry, awaitJson, arrayItems, hf, tryCatch]
          · simpa [fetchMangaList, fetchMangaListTry, awaitJson, arrayItems, hf, tryCatch] using hk
        | some e =>
          refine ⟨⟨getFallbackMangaList, ?_, distinctIds_fallback⟩, ?_⟩
          · simp [fetchMangaList, fetchMangaListTry, awaitJson, arrayItems, hf, tryCatch]
          · simpa [fetchMangaList, fetchMangaListTry, awaitJson, arrayItems, hf, tryCatch] using hk
    | _ => exact ⟨⟨_, rfl, distinctIds_fallback⟩, h⟩

/-- Every call of a sequence returns distinct ids when the map satisfies the invariant at the start. -/
theorem fetchMangaListCalls_distinct (outcomes : List FetchOutcome) :
    ∀ api : MangaAPI, KeyedById api.mangaData →
      ∀ result ∈ fetchMangaListCalls api outcomes, ∃ v, result = .ok v ∧ distinctIds v := by
  induction outcomes with
  | nil => intro api _ result hr; simp [fetchMangaListCalls] at hr
  | cons o rest ih =>
    intro api h result hr
    obtain ⟨hres, hinv⟩ := fetchMangaList_distinct api o h
    simp only [fetchMangaListCalls, List.mem_cons] at hr
    rcases hr with hr | hr
    · rw [hr]; exact hres
    · exact ih _ hinv result hr

/-- C12: manga ids are unique.  For every sequence of `fetchMangaList()`
calls on one instance and every remote outcome of each call (responses that
list the same id several times and failed calls included), the list each
call returns has no two records with the same `id`. -/
theorem manga_ids_are_unique (outcomes : List FetchOutcome) :
    ∀ result ∈ fetchMangaListCalls MangaAPI.initial outcomes,
      ∃ v, result = .ok v ∧ distinctIds v :=
  fetchMangaListCalls_distinct outcomes MangaAPI.initial
    ⟨List.Pairwise.nil, fun _ he => absurd he (List.not_mem_nil _)⟩

/-- Witness of C12: a response that lists `one-piece` twice, then a failed call. -/
theorem manga_ids_are_unique_witness :
    (fetchMangaList MangaAPI.initial duplicateIdOutcome).1
        ∈ fetchMangaListCalls MangaAPI.initial [duplicateIdOutcome, .networkError] ∧
      ∃ v, (fetchMangaList MangaAPI.initial duplicateIdOutcome).1 = .ok v ∧ distinctIds v :=
  ⟨List.mem_cons_self _ _,
    manga_ids_are_unique [duplicateIdOutcome, .networkError] _ (List.mem_cons_self _ _)⟩

/-- On string ids, `===` is equality of the strings. -/
theorem strictEq_str_false_iff (a b : String) :
    strictEq (.str a) (.str b) = false ↔ a ≠ b := by
  simp [strictEq]

/-- C13: the fallback for manga details returns the requested manga.  For
every `mangaId`, `getFallbackMangaData(mangaId)` returns a record of the
hardcoded fallback list; when a record of the list has that id, the returned
record's `id` equals `mangaId`; when no record has that id, it returns the
first record of the list, `jujutsu-kaisen`, instead of failing. -/
theorem getFallbackMangaData_requested_or_first (mangaId : JsVal) :
    ∃ items record,
      getFallbackMangaList = .arr items ∧
      getFallbackMangaData mangaId = .ok record ∧
      record ∈ items ∧
      ((∃ r ∈ items, strictEq (recordId r) mangaId = true) →
        getProp record "id" = .ok mangaId) ∧
      ((∀ r ∈ items, strictEq (recordId r) mangaId = false) →
        getIndex getFallbackMangaList 0 = .ok record ∧
          getProp record "id" = .ok (.str "jujutsu-kaisen")) := by
  cases h1 : strictEq (.str "jujutsu-kaisen") mangaId with
  | true =>
    have hm : JsVal.str "jujutsu-kaisen" = mangaId := strictEq_eq _ _ h1
    refine ⟨_, _, rfl, ?_, List.mem_cons_self _ _, fun _ => ?_, fun _ => ⟨rfl, rfl⟩⟩
    · simp [getFallbackMangaData, getFallbackMangaList, arrayItems, bind, Except.bind,
        findFirst, getProp, lookupField, pure, Except.pure, h1, truthy]
    · rw [← hm]; rfl
  | false =>
    cases h2 : strictEq (.str "one-piece") mangaId with
    | true =>
      have hm : JsVal.str "one-piece" = mangaId := strictEq_eq _ _ h2
      refine ⟨_, _, rfl, ?_, List.mem_cons_of_mem _ (List.mem_cons_self _ _), fun _ => ?_,
        fun hall => ?_⟩
      · simp [getFallbackMangaData, getFallbackMangaList, arrayItems, bind, Except.bind,
          findFirst, getProp, lookupField, pure, Except.pure, h1, h2, truthy]
      · rw [← hm]; rfl
      · have := hall _ (List.mem_cons_of_mem _ (List.mem_cons_self _ _))
        simp [recordId, getProp, lookupField, h2] at this
    | false =>
      refine ⟨_, _, rfl, ?_, List.mem_cons_self _ _, fun hex => ?_, fun _ => ⟨rfl, rfl⟩⟩
      · simp [getFallbackMangaData, getFallbackMangaList, arrayItems, bind, Except.bind,
          findFirst, getProp, lookupField, pure, Except.pure, h1, h2, truthy, getIndex]
      · obtain ⟨r, hr, heq⟩ := hex
        simp only [List.mem_cons, List.mem_singleton, List.not_mem_nil, or_false] at hr
        rcases hr with hr | hr <;> subst hr <;>
          simp [recordId, getProp, lookupField, h1, h2] at heq

/-- Witness of C13: `one-piece` is in the list and is returned; `naruto` is
not and the first record is returned. -/
theorem getFallbackMangaData_requested_or_first_witness :
    (∃ record, getFallbackMangaData (.str "one-piece") = .ok record ∧
        getProp record "id" = .ok (.str "one-piece")) ∧
      ∃ record, getFallbackMangaData (.str "naruto") = .ok record ∧
        getProp record "id" = .ok (.str "jujutsu-kaisen") := by
  obtain ⟨items, record, hl, hget, _, hfound, _⟩ :=
    getFallbackMangaData_requested_or_first (.str "one-piece")
  obtain ⟨items', record', hl', hget', _, _, hfirst⟩ :=
    getFallbackMangaData_requested_or_first (.str "naruto")
  refine ⟨⟨record, hget, hfound ?_⟩, ⟨record', hget', (hfirst ?_).2⟩⟩
  · simp only [getFallbackMangaList, JsVal.arr.injEq] at hl
    subst hl
    exact ⟨_, List.mem_cons_of_mem _ (List.mem_cons_self _ _), rfl⟩
  · simp only [getFallbackMangaList, JsVal.arr.injEq] at hl'
    subst hl'
    intro r hr
    simp only [List.mem_cons, List.mem_singleton, List.not_mem_nil, or_false] at hr
    rcases hr with hr | hr <;> subst hr <;> rfl

/-! ## Properties of the page turns -/

/-- What `pagesLoaded` says. -/
theorem pagesLoaded_spec (r : MangaReader) (h : pagesLoaded r = true) :
    ∃ pages, getProp r.mangaData "pages" = .ok (.arr pages) ∧
      (pages.length : Int) = r.totalPages ∧ ∀ p ∈ pages, isNullish p = false := by
  unfold pagesLoaded at h
  cases hp : getProp r.mangaData "pages" with
  | error e => simp [hp] at h
  | ok pagesVal =>
    cases pagesVal with
    | arr pages =>
      simp only [hp, Bool.and_eq_true, decide_eq_true_eq, List.all_eq_true] at h
      exact ⟨pages, rfl, h.1, fun p hmem => by simpa using h.2 p hmem⟩
    | _ => simp [hp] at h

/-- A property read of a truthy value succeeds. -/
theorem getProp_ok_of_truthy (v : JsVal) (k : String) (h : truthy v = true) :
    ∃ w, getProp v k = .ok w := by
  cases v <;> simp_all [truthy, getProp]

/-- An indexed read of an array succeeds. -/
theorem getIndex_arr (pages : List JsVal) (i : Int) :
    ∃ w, getIndex (.arr pages) i = .ok w := by
  by_cases h : 0 ≤ i <;> simp [getIndex, h]

/-- When `mangaData.pages` is an array, `updatePageDisplay()` does not throw. -/
theorem updatePageDisplay_ok (r : MangaReader) (dom : Dom) (pages : List JsVal)
    (hp : getProp r.mangaData "pages" = .ok (.arr pages)) :
    ∃ dom', updatePageDisplay r dom = .ok dom' := by
  unfold updatePageDisplay
  cases hc : dom.currentPage with
  | none => exact ⟨_, rfl⟩
  | some el =>
    obtain ⟨w, hw⟩ := getIndex_arr pages r.currentPage
    by_cases ht : truthy w = true
    · obtain ⟨img, himg⟩ := getProp_ok_of_truthy w "image" ht
      simp only [hp, hw, ht, himg, bind, Except.bind, pure, Except.pure, if_true]
      exact ⟨_, rfl⟩
    · simp only [hp, hw, ht, bind, Except.bind, pure, Except.pure, if_false, Bool.false_eq_true]
      exact ⟨_, rfl⟩

/-- A page inside the range of the loaded pages has an image to read. -/
theorem pageImage_ok (pages : List JsVal) (idx : Int) (h0 : idx ≥ 0)
    (h1 : idx < (pages.length : Int)) (hall : ∀ p ∈ pages, isNullish p = false) :
    ∃ pageData img, getIndex (.arr pages) idx = .ok pageData ∧ getProp pageData "image" = .ok img := by
  have hlt : idx.toNat < pages.length := by
    have : (idx.toNat : Int) < (pages.length : Int) := by
      rw [Int.toNat_of_nonneg h0]; exact h1
    exact_mod_cast this
  have hidx : getIndex (.arr pages) idx = .ok (pages.get ⟨idx.toNat, hlt⟩) := by
    have h0' : 0 ≤ idx := h0
    simp [getIndex, h0', List.getElem?_eq_getElem hlt]
  obtain ⟨img, himg⟩ := getProp_ok_of_not_nullish (pages.get ⟨idx.toNat, hlt⟩) "image"
    (hall _ (List.get_mem _ _ _))
  exact ⟨_, img, hidx, himg⟩

/-- When the reader holds its pages, the executor of `animatePageFlip` does not throw. -/
theorem animatePageFlip_ok (r : MangaReader) (dom : Dom) (direction : Flip) (pages : List JsVal)
    (hp : getProp r.mangaData "pages" = .ok (.arr pages))
    (hlen : (pages.length : Int) = r.totalPages) (hall : ∀ p ∈ pages, isNullish p = false) :
    ∃ res, animatePageFlip r dom direction = .ok res := by
  unfold animatePageFlip
  cases hc : dom.currentPage with
  | none => exact ⟨_, rfl⟩
  | some el =>
    cases hn : dom.nextPage with
    | none => exact ⟨_, rfl⟩
    | some nextEl =>
      cases direction with
      | next =>
        simp only [if_true]
        split_ifs with hrange
        · obtain ⟨pd, img, hpd, himg⟩ := pageImage_ok pages _ hrange.1 (hlen ▸ hrange.2) hall
          simp only [hp, hpd, himg, bind, Except.bind, pure, Except.pure]
          exact ⟨_, rfl⟩
        · exact ⟨_, rfl⟩
      | prev =>
        simp only [reduceCtorEq, if_false]
        split_ifs with hrange
        · obtain ⟨pd, img, hpd, himg⟩ := pageImage_ok pages _ hrange.1 (hlen ▸ hrange.2) hall
          simp only [hp, hpd, himg, bind, Except.bind, pure, Except.pure]
          exact ⟨_, rfl⟩
        · exact ⟨_, rfl⟩

/-- The page records `loadMangaData` builds are objects. -/
theorem mapList_displayPage_not_nullish (items : List JsVal) :
    ∀ pages, mapList displayPage items = .ok pages → ∀ p ∈ pages, isNullish p = false := by
  induction items with
  | nil =>
    intro pages h p hp
    simp only [mapList, Except.ok.injEq] at h
    subst h
    exact absurd hp (List.not_mem_nil _)
  | cons x rest ih =>
    intro pages h p hp
    cases hx : displayPage x with
    | error e => simp [mapList, hx] at h
    | ok y =>
      cases hr : mapList displayPage rest with
      | error e => simp [mapList, hx, hr] at h
      | ok ys =>
        simp only [mapList, hx, hr, Except.ok.injEq] at h
        subst h
        rw [List.mem_cons] at hp
        rcases hp with hp | hp
        · subst hp
          cases hid : getProp x "id" with
          | error e => simp [displayPage, hid, bind, Except.bind] at hx
          | ok id =>
            cases him : getProp x "imageUrl" with
            | error e => simp [displayPage, hid, him, bind, Except.bind] at hx
            | ok im =>
              simp only [displayPage, hid, him, bind, Except.bind, pure, Except.pure,
                Except.ok.injEq] at hx
              subst hx
              rfl
        · exact ih ys hr p hp

/-- The assignments of `loadMangaData` leave a reader that holds its pages. -/
theorem pagesLoaded_assignMangaData (r r2 : MangaReader) (mangaDetails chapterData : JsVal)
    (h : assignMangaData r mangaDetails chapterData = .ok r2) : pagesLoaded r2 = true := by
  unfold assignMangaData at h
  cases h1 : getProp mangaDetails "arabicTitle" with
  | error e => simp [h1, bind, Except.bind] at h
  | ok arabicTitle =>
    cases h2 : getProp mangaDetails "title" with
    | error e => simp [h1, h2, bind, Except.bind] at h
    | ok title =>
      cases h3 : getProp chapterData "pages" with
      | error e => simp [h1, h2, h3, bind, Except.bind] at h
      | ok pagesIn =>
        cases h4 : arrayItems pagesIn with
        | error e => simp [h1, h2, h3, h4, bind, Except.bind] at h
        | ok items =>
          cases h5 : mapList displayPage items with
          | error e => simp [h1, h2, h3, h4, h5, bind, Except.bind] at h
          | ok pages =>
            simp only [h1, h2, h3, h4, h5, bind, Except.bind, pure, Except.pure,
              Except.ok.injEq] at h
            subst h
            have hall := mapList_displayPage_not_nullish items pages h5
            simp only [pagesLoaded, getProp, lookupField]
            simp only [String.reduceEq, if_false, if_true, decide_True, Bool.true_and,
              List.all_eq_true, Bool.not_eq_true']
            exact hall

/-- A completed `loadMangaData()` leaves a reader that holds its pages. -/
theorem pagesLoaded_loadMangaData (v v' : View) (detailsOutcome chapterOutcome : FetchOutcome)
    (h : loadMangaData v detailsOutcome chapterOutcome = .returned v') :
    pagesLoaded v'.reader = true := by
  unfold loadMangaData at h
  split at h
  · simp [loadFallbackData] at h
  · split at h
    · simp [loadFallbackData] at h
    · simp only at h
      split at h
      · simp [loadFallbackData] at h
      · rename_i r2 hassign
        split at h
        · simp [loadFallbackData] at h
        · simp only [Settled.returned.injEq] at h
          subst h
          exact pagesLoaded_assignMangaData _ r2 _ _ hassign

/-- C14: a page turn moves by exactly one page.  In every state in which the
reader holds its pages (`mangaData.pages` has `totalPages` page records, as
`loadMangaData` leaves it), a `nextPage()` that runs to completion from
`isAnimating = false` and `currentPage < totalPages - 1` ends with
`currentPage` one higher, `isAnimating` false again and every other field
unchanged; with `isAnimating = false` and `currentPage > 0`, `previousPage()`
ends with `currentPage` one lower; and while `isAnimating` is true both
operations return at their guard and change nothing. -/
theorem page_turn_moves_one_page (v : View) :
    (v.reader.isAnimating = false → v.reader.currentPage < v.reader.totalPages - 1 →
      pagesLoaded v.reader = true →
      ∃ dom', nextPage v = .returned
        ⟨{ v.reader with currentPage := v.reader.currentPage + 1, isAnimating := false }, dom'⟩) ∧
    (v.reader.isAnimating = false → v.reader.currentPage > 0 →
      pagesLoaded v.reader = true →
      ∃ dom', previousPage v = .returned
        ⟨{ v.reader with currentPage := v.reader.currentPage - 1, isAnimating := false }, dom'⟩) ∧
    (v.reader.isAnimating = true →
      nextPageBegin v = .returned v ∧ nextPage v = .returned v ∧
        previousPageBegin v = .returned v ∧ previousPage v = .returned v) := by
  refine ⟨?_, ?_, ?_⟩
  · intro ha hlt hl
    obtain ⟨pages, hp, hlen, hall⟩ := pagesLoaded_spec v.reader hl
    obtain ⟨⟨dom1, timed⟩, hflip⟩ := animatePageFlip_ok { v.reader with isAnimating := true } v.dom
      .next pages hp hlen hall
    obtain ⟨dom2, hupd⟩ := updatePageDisplay_ok
      { v.reader with currentPage := v.reader.currentPage + 1, isAnimating := true } dom1 pages hp
    have hguard : ¬ (v.reader.currentPage ≥ v.reader.totalPages - 1) := not_le.mpr hlt
    have hb : nextPageBegin v
        = .awaiting ⟨{ v.reader with isAnimating := true }, dom1⟩ .next timed := by
      simp [nextPageBegin, ha, hguard, hflip]
    exact ⟨dom2, by simp [nextPage, hb, nextPageResume, hupd]⟩
  · intro ha hgt hl
    obtain ⟨pages, hp, hlen, hall⟩ := pagesLoaded_spec v.reader hl
    obtain ⟨⟨dom1, timed⟩, hflip⟩ := animatePageFlip_ok { v.reader with isAnimating := true } v.dom
      .prev pages hp hlen hall
    obtain ⟨dom2, hupd⟩ := updatePageDisplay_ok
      { v.reader with currentPage := v.reader.currentPage - 1, isAnimating := true } dom1 pages hp
    have hguard : ¬ (v.reader.currentPage ≤ 0) := not_le.mpr hgt
    have hb : previousPageBegin v
        = .awaiting ⟨{ v.reader with isAnimating := true }, dom1⟩ .prev timed := by
      simp [previousPageBegin, ha, hguard, hflip]
    exact ⟨dom2, by simp [previousPage, hb, previousPageResume, hupd]⟩
  · intro ha
    have hn : nextPageBegin v = .returned v := by simp [nextPageBegin, ha]
    have hq : previousPageBegin v = .returned v := by simp [previousPageBegin, ha]
    exact ⟨hn, by simp [nextPage, hn], hq, by simp [previousPage, hq]⟩

/-- Witness of C14: the first page turn of a reader that holds the three sample pages. -/
theorem page_turn_moves_one_page_witness :
    sampleLoaded.reader.isAnimating = false ∧
      sampleLoaded.reader.currentPage < sampleLoaded.reader.totalPages - 1 ∧
      pagesLoaded sampleLoaded.reader = true ∧
      ∃ dom', nextPage sampleLoaded = .returned
        ⟨{ sampleLoaded.reader with currentPage := 1, isAnimating := false }, dom'⟩ :=
  ⟨rfl, by decide, rfl, (page_turn_moves_one_page sampleLoaded).1 rfl (by decide) rfl⟩

/-- C15, the page index leaves its range: from a reader that holds three
pages, a page forward, then `previousPage()` started at page 1, then
`loadChapter` while that flip is still animating (it sets `currentPage` to 0),
then the end of the flip (it decrements `currentPage`): the reader ends with
`currentPage = -1`. -/
theorem loadChapter_during_flip_leaves_range :
    sampleLoaded.reader.currentPage = 0 ∧
      sampleLoaded.reader.totalPages = 3 ∧
      ((Session.mk sampleLoaded none).run [.nextPage, .flipDone]).view.reader.currentPage = 1 ∧
      ((Session.mk sampleLoaded none).run [.nextPage, .flipDone, .previousPage]).pending
        = some .prev ∧
      ((Session.mk sampleLoaded none).run
        [.nextPage, .flipDone, .previousPage, .loadChapter 2]).view.reader.currentPage = 0 ∧
      ((Session.mk sampleLoaded none).run
        [.nextPage, .flipDone, .previousPage, .loadChapter 2, .flipDone]).view.reader.currentPage
        = -1 :=
  ⟨rfl, rfl, rfl, rfl, rfl, rfl⟩

/-- C16: `updatePageDisplay` never fails on missing data.  For every page and
document, every call of `updatePageDisplay()` the `DOMContentLoaded` listener
makes is on a reader whose `mangaData` is loaded and does not throw.  It
holds because the listener makes no such call: `new MangaReader()` evaluates
`new MangaAPI()`, whose `init()` calls the undefined `this.loadMangaList()`, so
the listener throws a `TypeError` before it reaches `updatePageDisplay()`, and
no reader exists afterwards, nor any listener of the reader. -/
theorem updatePageDisplay_not_called_before_load (pathname : String) (dom : Dom) :
    (onDOMContentLoaded pathname dom).displayCalls.all
        (fun r => !isNullish r.mangaData && displaysWithoutError r dom) = true ∧
      (onDOMContentLoaded pathname dom).displayCalls = [] ∧
      (onDOMContentLoaded pathname dom).result = .error .typeError ∧
      MangaReader.construct = .error .typeError :=
  ⟨rfl, rfl, rfl, rfl⟩

/-- C17: swipe classification.  With `diffX = startX - endX` and
`diffY = startY - endY`, the `touchend` listener begins a page turn if and
only if `startX` and `startY` are both non-zero, `|diffX| > |diffY|` and
`|diffX| > 50` (a displacement of exactly 50 begins nothing); it then calls
`nextPage()` if `diffX > 0` and `previousPage()` otherwise, never both, and
the method it calls does not depend on `readingDirection`. -/
theorem swipe_classification (v : View) (startX startY endX endY : Int) :
    ((onTouchEnd v (onTouchStart startX startY) endX endY).1.isSome = true ↔
      (startX ≠ 0 ∧ startY ≠ 0 ∧ |startX - endX| > |startY - endY| ∧ |startX - endX| > 50)) ∧
    ((onTouchEnd v (onTouchStart startX startY) endX endY).1.isSome = true →
      (startX - endX > 0 →
        (onTouchEnd v (onTouchStart startX startY) endX endY).1
          = some (.next, nextPageBegin v)) ∧
      (¬ startX - endX > 0 →
        (onTouchEnd v (onTouchStart startX startY) endX endY).1
          = some (.prev, previousPageBegin v))) ∧
    (|startX - endX| = 50 → (onTouchEnd v (onTouchStart startX startY) endX endY).1 = none) ∧
    (∀ direction : String,
      (onTouchEnd ⟨{ v.reader with readingDirection := direction }, v.dom⟩
          (onTouchStart startX startY) endX endY).1.map Prod.fst
        = (onTouchEnd v (onTouchStart startX startY) endX endY).1.map Prod.fst) := by
  by_cases hs : startX = 0 ∨ startY = 0
  · have hnone : ∀ w : View, (onTouchEnd w (onTouchStart startX startY) endX endY).1 = none := by
      intro w; simp [onTouchEnd, onTouchStart, hs]
    refine ⟨?_, ?_, fun _ => hnone v, fun d => by rw [hnone, hnone]⟩
    · rw [hnone]
      constructor
      · intro h; simp at h
      · rintro ⟨h1, h2, _⟩
        rcases hs with hs | hs
        · exact absurd hs h1
        · exact absurd hs h2
    · intro h; rw [hnone] at h; simp at h
  · have hs' : startX ≠ 0 ∧ startY ≠ 0 := by
      constructor
      · intro h; exact hs (Or.inl h)
      · intro h; exact hs (Or.inr h)
    by_cases hc : |startX - endX| > |startY - endY| ∧ |startX - endX| > 50
    · by_cases hd : startX - endX > 0
      · have hv : ∀ w : View, (onTouchEnd w (onTouchStart startX startY) endX endY).1
            = some (.next, nextPageBegin w) := by
          intro w; simp [onTouchEnd, onTouchStart, hs, hc, hd]
        refine ⟨?_, fun _ => ⟨fun _ => hv v, fun hn => absurd hd hn⟩, fun h50 => ?_,
          fun d => by rw [hv, hv]; rfl⟩
        · rw [hv]; simp [hs'.1, hs'.2, hc.1, hc.2]
        · have := hc.2; rw [h50] at this; exact absurd this (lt_irrefl _)
      · have hv : ∀ w : View, (onTouchEnd w (onTouchStart startX startY) endX endY).1
            = some (.prev, previousPageBegin w) := by
          intro w; simp [onTouchEnd, onTouchStart, hs, hc, hd]
        refine ⟨?_, fun _ => ⟨fun hp => absurd hp hd, fun _ => hv v⟩, fun h50 => ?_,
          fun d => by rw [hv, hv]; rfl⟩
        · rw [hv]; simp [hs'.1, hs'.2, hc.1, hc.2]
        · have := hc.2; rw [h50] at this; exact absurd this (lt_irrefl _)
    · have hnone : ∀ w : View, (onTouchEnd w (onTouchStart startX startY) endX endY).1 = none := by
        intro w; simp only [onTouchEnd, onTouchStart, hs, hc, if_false]
      refine ⟨?_, ?_, fun _ => hnone v, fun d => by rw [hnone, hnone]⟩
      · rw [hnone]
        constructor
        · intro h; simp at h
        · rintro ⟨_, _, h3, h4⟩
          exact absurd ⟨h3, h4⟩ hc
      · intro h; rw [hnone] at h; simp at h

/-- Witness of C17: a swipe of 100 to the left from (200, 100) calls `nextPage()`. -/
theorem swipe_classification_witness :
    (200 : Int) - 100 > 0 ∧
      (onTouchEnd sampleLoaded (onTouchStart 200 100) 100 90).1
        = some (.next, nextPageBegin sampleLoaded) :=
  ⟨by decide, ((swipe_classification sampleLoaded 200 100 100 90).2.1 rfl).1 (by decide)⟩

end MangaReaderApp
